import Mathlib

/-!
# Gelrss: cache refresh and feed rendering of `server.js`

A shallow embedding of the cache store (`feedCache`), the staleness test
(`needsUpdate`), the refresh cycle (`updateArtistCache`), the renderer
(`generateRSSFeed`) and the `/rss/:artistId` handler of `src/server.js`,
followed by the properties proved about them.

Conventions of the embedding.

* The process-wide `Map`s are explicit: `feedConfigs` is a read-only argument,
  `feedCache` is a component of `ServerState`, and every operation that can
  touch the state returns the state it leaves behind.
* JavaScript values that arrive from the upstream JSON are `JsVal`s
  (primitives only: numbers are integers, as post ids are).
* A thrown exception is `Except.error`; `null` / `undefined` results are `none`.
* Time is the millisecond count of a `Date`.
* `updateArtistCache` is an `async` function with a single `await`; it is split
  at that point into the synchronous part `updateArtistCache_start` and the
  continuation `updateArtistCache_resume`. `updateArtistCache` is the composition
  of the two for a cycle that is not interleaved with anything else.
* The constant `cacheData` of `updateArtistCache` is the very object stored in
  `feedCache` under `artistId`. The only code that writes a cache entry is
  `updateArtistCache` itself, and a second call for the same id returns at the
  guard while the first is suspended, so the object is not written between
  suspension and resumption: the continuation works on the entry it captured.
* `needsUpdate` divides a difference of integer millisecond counts by 60000 and
  compares the quotient with the integer interval. For such operands the
  floating-point comparison agrees with the exact one (a quotient below the
  interval is below it by at least 1/60000, far more than the rounding error),
  so the quotient is modelled as a rational number.
* What the JavaScript runtime and the libraries do (date parsing and
  formatting, serialisation of the XML root element) is a field of `Env`.
-/

namespace Gelrss

/-! ## JavaScript values -/

/-- A JSON primitive as seen by JavaScript. -/
inductive JsVal where
  | undefined
  | null
  | bool (b : Bool)
  | num (n : Int)
  | str (s : String)
  deriving DecidableEq, Repr

/-- JavaScript truthiness (`ToBoolean`). -/
def JsVal.truthy : JsVal → Bool
  | .undefined => false
  | .null => false
  | .bool b => b
  | .num n => n != 0
  | .str s => s != ""

/-- String conversion performed by a template literal (`ToString`). -/
def JsVal.toStr : JsVal → String
  | .undefined => "undefined"
  | .null => "null"
  | .bool true => "true"
  | .bool false => "false"
  | .num n => toString n
  | .str s => s

/-- The three states of an object property: no such key, a key holding
`undefined`, a key holding a value. -/
inductive Slot (α : Type) where
  | absent
  | undef
  | val (a : α)
  deriving DecidableEq, Repr

/-- The JavaScript `delete obj.key`. -/
def Slot.delete {α : Type} (_ : Slot α) : Slot α := .absent

/-! ## Data model -/

/-- An entry of `feedConfigs` (lines 47-53). -/
structure FeedConfig where
  ARTIST_NAME : String
  GELBOORU_TAG : String
  ICON_URL : String
  FEED_TITLE : String
  FEED_LINK : String
  deriving DecidableEq, Repr

/-- A post object of the upstream response. -/
structure Post where
  id : JsVal
  created_at : JsVal
  file_url : JsVal
  tags : JsVal
  title : JsVal
  deriving DecidableEq, Repr

/-- The body of a successful upstream response (`response.data`); `post` is
`none` when the object has no `post` key. -/
structure UpstreamData where
  post : Option (List Post)
  deriving DecidableEq, Repr

/-- An entry of `feedCache`. A field that was never assigned is `none`. -/
structure CacheEntry where
  isUpdating : Bool
  rssContent : Option String := none
  lastUpdate : Option Int := none
  postCount : Option Nat := none
  deriving DecidableEq, Repr

/-- The `feedCache` map. -/
abbrev FeedCache := String → Option CacheEntry

/-- The `feedConfigs` map. -/
abbrev FeedConfigs := String → Option FeedConfig

/-- The JavaScript `Map.prototype.set`. -/
def FeedCache.set (m : FeedCache) (k : String) (v : CacheEntry) : FeedCache :=
  fun j => if j = k then some v else m j

/-- The empty map. -/
def FeedCache.empty : FeedCache := fun _ => none

/-- A GET issued through `axios.get(url, { params })`. -/
structure UpstreamRequest where
  url : String
  params : List (String × JsVal)
  deriving DecidableEq, Repr

/-- The mutable state of the process that the refresh logic reads and writes:
the cache store and the log of upstream calls issued so far. -/
structure ServerState where
  feedCache : FeedCache
  upstreamCalls : List UpstreamRequest

/-! ## Rendered feed -/

/-- The `guid` object of an item (lines 207-210). -/
structure Guid where
  text : String
  isPermaLink : String
  deriving DecidableEq, Repr

/-- An element of `rssItems` (lines 203-213). -/
structure RssItem where
  title : JsVal
  description : String
  link : String
  guid : Guid
  pubDate : String
  author : String
  deriving DecidableEq, Repr

/-- The `atom:link` attributes (lines 225-231). -/
structure AtomLink where
  href : String
  rel : String
  type : String
  deriving DecidableEq, Repr

/-- The channel image block (lines 236-240). -/
structure Image where
  url : String
  title : String
  link : String
  deriving DecidableEq, Repr

/-- The `channel` object (lines 222-244). -/
structure Channel where
  title : String
  link : String
  atomLink : AtomLink
  description : String
  generator : String
  webMaster : String
  language : String
  image : Slot Image
  lastBuildDate : String
  ttl : String
  item : List RssItem
  deriving DecidableEq, Repr

/-- The `rssData` object (lines 216-246). -/
structure RssData where
  version : String
  xmlnsAtom : String
  channel : Channel
  deriving DecidableEq, Repr

/-- Process configuration (lines 11-15) together with the behaviour of the
runtime and of `xml2js` that the code relies on. -/
structure Env where
  GELBOORU_API_KEY : String
  GELBOORU_USER_ID : String
  UPDATE_INTERVAL_MINUTES : Int
  FULL_BASE_URL : String
  /-- The call `new Date(x)`, with `none` for an invalid date. -/
  newDate : JsVal → Option Int
  /-- The method `Date.prototype.toUTCString`. -/
  toUTCString : Option Int → String
  /-- Serialisation of the root element by the `xml2js` builder; it throws on
  content it cannot serialise. -/
  xmlRoot : RssData → Except String String

/-! ## Upstream client -/

/-- The query parameters built by `fetchGelbooruPosts` (lines 109-121);
`limit = none` is a call without the second argument. -/
def fetchGelbooruPosts_params (env : Env) (tags : String) (limit : Option Int) :
    List (String × JsVal) :=
  let params : List (String × JsVal) :=
    [("page", .str "dapi"), ("s", .str "post"), ("q", .str "index"), ("json", .str "1"),
     ("tags", .str tags), ("limit", .num (limit.getD 20))]
  if env.GELBOORU_API_KEY != "" && env.GELBOORU_USER_ID != "" then
    params ++ [("api_key", .str env.GELBOORU_API_KEY), ("user_id", .str env.GELBOORU_USER_ID)]
  else
    params

/-- The request `fetchGelbooruPosts` hands to `axios.get` (lines 123-125). -/
def fetchGelbooruPosts_request (env : Env) (tags : String) (limit : Option Int) :
    UpstreamRequest :=
  { url := "https://gelbooru.com/index.php", params := fetchGelbooruPosts_params env tags limit }

/-! ## Feed renderer -/

/-- The characters matched by `\s` in a JavaScript regular expression, which
are also the characters removed by `String.prototype.trim`. -/
def isJsWhitespace (c : Char) : Bool :=
  let n := c.toNat
  (9 ≤ n && n ≤ 13) || n == 32 || n == 160 || n == 5760 || (8192 ≤ n && n ≤ 8202) ||
    n == 8232 || n == 8233 || n == 8239 || n == 8287 || n == 12288 || n == 65279

/-- The call `replace(/\s+/g, ' ')` on the characters of a string: every
maximal run of whitespace becomes one space. `inRun` tells that the previous
character belonged to a run that has already been replaced. -/
def replaceWhitespaceRuns (inRun : Bool) : List Char → List Char
  | [] => []
  | c :: cs =>
    if isJsWhitespace c then
      if inRun then replaceWhitespaceRuns true cs else ' ' :: replaceWhitespaceRuns true cs
    else c :: replaceWhitespaceRuns false cs

/-- The method `String.prototype.trim` on the characters of a string. -/
def jsTrim (cs : List Char) : List Char :=
  (cs.dropWhile isJsWhitespace).rdropWhile isJsWhitespace

/-- The expression `s.replace(/\s+/g, ' ').trim()` (line 195). -/
def normalizeTagString (s : String) : String :=
  String.mk (jsTrim (replaceWhitespaceRuns false s.data))

/-- The `tags` constant of line 195:
`post.tags ? post.tags.replace(/\s+/g, ' ').trim() : ''`. A truthy value that
is not a string has no `replace` method, and the call throws. -/
def postTags (tags : JsVal) : Except String String :=
  if tags.truthy then
    match tags with
    | .str s => .ok (normalizeTagString s)
    | _ => .error "post.tags.replace is not a function"
  else .ok ""

/-- The function `toRFC822Date` (lines 134-137). -/
def toRFC822Date (env : Env) (dateString : JsVal) : String :=
  env.toUTCString (env.newDate dateString)

/-- The callback of `posts.post.map` (lines 191-214). -/
def rssItem (env : Env) (config : FeedConfig) (artistId : String) (post : Post) :
    Except String RssItem := do
  let postId := post.id
  let createdAt := post.created_at
  let imageUrl := post.file_url
  let tags ← postTags post.tags
  let title := if post.title.truthy then post.title else .str ("Post " ++ postId.toStr)
  let postLink := "https://gelbooru.com/index.php?page=post&s=view&id=" ++ postId.toStr
  let guid := "gelbooru:" ++ artistId ++ ":" ++ postId.toStr
  return {
    title := title
    description := "<img src=\"" ++ imageUrl.toStr ++
      "\" referrerpolicy=\"no-referrer\"><br/>Tags: " ++ tags
    link := postLink
    guid := { text := guid, isPermaLink := "false" }
    pubDate := toRFC822Date env createdAt
    author := config.ARTIST_NAME }

/-- The constant `rssItems` (line 191): `map` stops at the first callback that
throws. -/
def rssItems (env : Env) (config : FeedConfig) (artistId : String) (posts : List Post) :
    Except String (List RssItem) :=
  posts.mapM (rssItem env config artistId)

/-- The object `rssData` as it stands when it is handed to the builder: the
literal of lines 216-246 followed by the `delete` of lines 248-250. `now` is
the `new Date()` of line 241. -/
def rssData (env : Env) (now : Int) (config : FeedConfig) (artistId : String)
    (items : List RssItem) : RssData :=
  let channel : Channel :=
    { title := config.FEED_TITLE
      link := config.FEED_LINK
      atomLink :=
        { href := env.FULL_BASE_URL ++ "/rss/" ++ artistId
          rel := "self"
          type := "application/rss+xml" }
      description := config.FEED_TITLE ++ " - Powered by Gelbooru RSS Generator"
      generator := "Gelbooru RSS Generator v2.0"
      webMaster := "admin@example.com (RSS Generator)"
      language := "en"
      image :=
        if config.ICON_URL != "" then
          .val { url := config.ICON_URL, title := config.FEED_TITLE, link := config.FEED_LINK }
        else .undef
      lastBuildDate := env.toUTCString (some now)
      ttl := toString env.UPDATE_INTERVAL_MINUTES
      item := items }
  let channel := if config.ICON_URL == "" then { channel with image := channel.image.delete }
    else channel
  { version := "2.0", xmlnsAtom := "http://www.w3.org/2005/Atom", channel := channel }

/-- The XML declaration the builder is configured with (lines 252-254). -/
def xmlDeclaration : String := "<?xml version=\"1.0\" encoding=\"UTF-8\"?>"

/-- The call `builder.buildObject(rssData)` (lines 252-256): the configured
declaration followed by the serialised root element. -/
def buildObject (env : Env) (d : RssData) : Except String String :=
  (env.xmlRoot d).map (xmlDeclaration ++ ·)

/-- The object handed to the builder by `generateRSSFeed`, or `none` when the
function returns `null` before building anything (lines 187-250). -/
def generateRSSFeed_data (env : Env) (now : Int) (posts : Option UpstreamData)
    (config : FeedConfig) (artistId : String) : Except String (Option RssData) :=
  match posts with
  | none => .ok none
  | some data =>
    match data.post with
    | none => .ok none
    | some [] => .ok none
    | some (p :: ps) => do
      let items ← rssItems env config artistId (p :: ps)
      return some (rssData env now config artistId items)

/-- The function `generateRSSFeed` (lines 186-257); `none` is `null`. -/
def generateRSSFeed (env : Env) (now : Int) (posts : Option UpstreamData)
    (config : FeedConfig) (artistId : String) : Except String (Option String) := do
  match ← generateRSSFeed_data env now posts config artistId with
  | none => return none
  | some d =>
    let doc ← buildObject env d
    return some doc

/-! ## Cache store and refresh cycle -/

/-- Truthiness of a string-valued property that may be unset. -/
def truthyContent : Option String → Bool
  | none => false
  | some s => s != ""

/-- The function `needsUpdate` (lines 139-146); `now` is the `new Date()` of
line 143. -/
def needsUpdate (env : Env) (now : Int) (artistId : String) (st : ServerState) :
    Bool × ServerState :=
  match st.feedCache artistId with
  | none => (true, st)
  | some cacheData =>
    match cacheData.lastUpdate with
    | none => (true, st)
    | some lastUpdate =>
      if !truthyContent cacheData.rssContent then (true, st)
      else
        let diffMinutes : ℚ := ((now - lastUpdate : Int) : ℚ) / (1000 * 60)
        (decide (diffMinutes ≥ (env.UPDATE_INTERVAL_MINUTES : ℚ)), st)

/-- What a suspended `updateArtistCache` holds across its `await`: the
constants `artistId`, `config` and `cacheData`. -/
structure Pending where
  artistId : String
  config : FeedConfig
  cacheData : CacheEntry
  deriving DecidableEq, Repr

/-- How the synchronous part of `updateArtistCache` ends. -/
inductive Started where
  /-- The `return` of line 152. -/
  | configNotFound
  /-- The `return` of line 159. -/
  | alreadyInProgress
  /-- Suspended at the `await` of line 167. -/
  | awaiting (p : Pending)
  deriving DecidableEq, Repr

/-- Lines 149-167 of `updateArtistCache`, up to and including the call of
`fetchGelbooruPosts`, which issues the upstream request. -/
def updateArtistCache_start (env : Env) (feedConfigs : FeedConfigs) (artistId : String)
    (st : ServerState) : Started × ServerState :=
  match feedConfigs artistId with
  | none => (.configNotFound, st)
  | some config =>
    let cacheData := (st.feedCache artistId).getD { isUpdating := false }
    if cacheData.isUpdating then (.alreadyInProgress, st)
    else
      let cacheData := { cacheData with isUpdating := true }
      let feedCache := st.feedCache.set artistId cacheData
      let call := fetchGelbooruPosts_request env config.GELBOORU_TAG none
      (.awaiting { artistId := artistId, config := config, cacheData := cacheData },
        { feedCache := feedCache, upstreamCalls := st.upstreamCalls ++ [call] })

/-- Lines 167-183 of `updateArtistCache`, from the moment `fetchGelbooruPosts`
has resolved to `posts` (`none` is the `null` of its `catch`). `tBuild` and
`tCommit` are the `new Date()` of lines 241 and 172. -/
def updateArtistCache_resume (env : Env) (p : Pending) (posts : Option UpstreamData)
    (tBuild tCommit : Int) (st : ServerState) : ServerState :=
  let tried : Except String CacheEntry :=
    match posts with
    | some { post := some (q :: qs) } => do
      let rssContent ← generateRSSFeed env tBuild posts p.config p.artistId
      return { p.cacheData with
        rssContent := rssContent
        lastUpdate := some tCommit
        postCount := some (q :: qs).length }
    | _ => return p.cacheData
  let cacheData :=
    match tried with
    | .ok cacheData => cacheData
    | .error _ => p.cacheData
  let cacheData := { cacheData with isUpdating := false }
  { st with feedCache := st.feedCache.set p.artistId cacheData }

/-- A whole call of `updateArtistCache` (lines 148-184) whose upstream request,
if one is made, resolves to `posts`. -/
def updateArtistCache (env : Env) (feedConfigs : FeedConfigs) (artistId : String)
    (posts : Option UpstreamData) (tBuild tCommit : Int) (st : ServerState) : ServerState :=
  match updateArtistCache_start env feedConfigs artistId st with
  | (.awaiting p, st1) => updateArtistCache_resume env p posts tBuild tCommit st1
  | (_, st1) => st1

/-! ## The `/rss/:artistId` handler -/

/-- An HTTP response. -/
structure Response where
  status : Nat
  headers : List (String × String)
  body : String
  deriving DecidableEq, Repr

/-- The handler of `GET /rss/:artistId` (lines 259-285). `now` is the clock
read by `needsUpdate`; `posts`, `tBuild` and `tCommit` are as in
`updateArtistCache`. -/
def rssHandler (env : Env) (feedConfigs : FeedConfigs) (artistId : String) (now : Int)
    (posts : Option UpstreamData) (tBuild tCommit : Int) (st : ServerState) :
    Response × ServerState :=
  match feedConfigs artistId with
  | none => ({ status := 404, headers := [], body := "Feed not found for: " ++ artistId }, st)
  | some _ =>
    let (stale, st) := needsUpdate env now artistId st
    let st := if stale then updateArtistCache env feedConfigs artistId posts tBuild tCommit st
      else st
    match st.feedCache artistId with
    | none =>
      ({ status := 404, headers := [], body := "No RSS content available for: " ++ artistId }, st)
    | some cacheData =>
      if !truthyContent cacheData.rssContent then
        ({ status := 404, headers := [],
           body := "No RSS content available for: " ++ artistId }, st)
      else
        ({ status := 200
           headers := [("Content-Type", "application/rss+xml; charset=utf-8"),
             ("Cache-Control",
               "public, max-age=" ++ toString (env.UPDATE_INTERVAL_MINUTES * 60))]
           body := cacheData.rssContent.getD "" }, st)

/-! ## Observations used in the statements -/

/-- The guard of lines 155-160 lets a trigger through exactly when the feed is
idle: it has no entry, or its entry is not in progress. -/
def Idle (st : ServerState) (artistId : String) : Prop :=
  ∀ e, st.feedCache artistId = some e → e.isUpdating = false

/-- The value read by `cacheData && cacheData.rssContent`. -/
def rssContentOf (st : ServerState) (artistId : String) : Option String :=
  (st.feedCache artistId).bind (·.rssContent)

/-- The value read by `cacheData && cacheData.lastUpdate`. -/
def lastUpdateOf (st : ServerState) (artistId : String) : Option Int :=
  (st.feedCache artistId).bind (·.lastUpdate)

/-- The value read by `cacheData && cacheData.postCount`. -/
def postCountOf (st : ServerState) (artistId : String) : Option Nat :=
  (st.feedCache artistId).bind (·.postCount)

/-- A cycle for `artistId` that received the posts `posts` has committed in
`st`: the entry holds what `generateRSSFeed` returned for them, their number,
the commit time, and is no longer in progress. -/
def Committed (env : Env) (config : FeedConfig) (artistId : String) (posts : List Post)
    (tBuild tCommit : Int) (st : ServerState) : Prop :=
  ∃ e doc, st.feedCache artistId = some e ∧
    generateRSSFeed env tBuild (some { post := some posts }) config artistId = .ok (some doc) ∧
    e.rssContent = some doc ∧
    e.postCount = some posts.length ∧
    e.lastUpdate = some tCommit ∧
    e.isUpdating = false

/-- The `tags` property of a post is one `generateRSSFeed` can flatten: it is
falsy or a string. -/
def Post.tagsUsable (p : Post) : Prop :=
  p.tags.truthy = false ∨ ∃ s, p.tags = .str s

/-- The view link of line 199 for a post id. -/
def postViewLink (id : JsVal) : String :=
  "https://gelbooru.com/index.php?page=post&s=view&id=" ++ id.toStr

/-- The maximal runs of non-whitespace characters of a string, in order. -/
def nonWhitespaceRuns (cs : List Char) : List (List Char) :=
  (cs.splitOnP isJsWhitespace).filter (fun r => !r.isEmpty)

/-- The runs joined by single spaces. -/
def joinWithSpaces (runs : List (List Char)) : List Char :=
  [' '].intercalate runs

/-- A normalized tag string: its only whitespace character is the space, it
neither starts nor ends with whitespace, and no two whitespace characters are
adjacent. -/
def Normalized (cs : List Char) : Prop :=
  (∀ c ∈ cs, isJsWhitespace c = true → c = ' ') ∧
  (∀ c, cs.head? = some c → isJsWhitespace c = false) ∧
  (∀ c, cs.getLast? = some c → isJsWhitespace c = false) ∧
  cs.Chain' (fun a b => ¬ (isJsWhitespace a = true ∧ isJsWhitespace b = true))

/-- The joined runs of a string, preceded by one space when the string starts
with whitespace and has a run: what replacing the whitespace runs and trimming
on the right only produces. -/
def joinedRunsAfterLead : List Char → List Char
  | [] => []
  | d :: cs =>
    if isJsWhitespace d then
      if joinWithSpaces (nonWhitespaceRuns cs) = [] then []
      else ' ' :: joinWithSpaces (nonWhitespaceRuns cs)
    else joinWithSpaces (nonWhitespaceRuns (d :: cs))

/-- A query parameter is one of the two credential parameters. -/
def isCredentialParam (kv : String × JsVal) : Bool :=
  kv.1 == "api_key" || kv.1 == "user_id"

/-- The parameters of the upstream call other than the credentials: the
endpoint selectors, the JSON format flag, the tag query and the limit, which
is 20 when the caller gives none. -/
def nonCredentialParams (tags : String) (limit : Option Int) : List (String × JsVal) :=
  [("page", .str "dapi"), ("s", .str "post"), ("q", .str "index"), ("json", .str "1"),
   ("tags", .str tags), ("limit", .num (limit.getD 20))]

/-! ## Sample data -/

/-- A configuration with a trivial runtime: ten minutes, no credentials. -/
def sampleEnv : Env :=
  { GELBOORU_API_KEY := ""
    GELBOORU_USER_ID := ""
    UPDATE_INTERVAL_MINUTES := 10
    FULL_BASE_URL := "http://localhost:3000"
    newDate := fun _ => none
    toUTCString := fun _ => "Invalid Date"
    xmlRoot := fun _ => .ok "<rss/>" }

/-- The first example configuration of `createExampleConfigs` (lines 76-85). -/
def khyleConfig : FeedConfig :=
  { ARTIST_NAME := "Khyle"
    GELBOORU_TAG := "khyle_(artist)"
    ICON_URL := "https://img.gelbooru.com/icon.png"
    FEED_TITLE := "Posts of Khyle from Gelbooru"
    FEED_LINK := "https://gelbooru.com/index.php?page=post&s=list&tags=khyle_(artist)+" }

/-- A config store holding the feed `khyle` only. -/
def sampleConfigs : FeedConfigs :=
  fun k => if k = "khyle" then some khyleConfig else none

/-- The state of a freshly started process. -/
def freshState : ServerState :=
  { feedCache := FeedCache.empty, upstreamCalls := [] }

/-- A state in which a cycle for `khyle` is running. -/
def busyState : ServerState :=
  { feedCache := FeedCache.empty.set "khyle" { isUpdating := true }
    upstreamCalls := [fetchGelbooruPosts_request sampleEnv "khyle_(artist)" none] }

/-- A post with id 1 and a two-tag string. -/
def samplePost : Post :=
  { id := .num 1
    created_at := .str "2024-01-01 00:00:00"
    file_url := .str "https://img.gelbooru.com/1.png"
    tags := .str " 1girl   solo "
    title := .undefined }

/-- A post whose `tags` property is a number. -/
def numericTagsPost : Post :=
  { id := .num 1
    created_at := .str "2024-01-01 00:00:00"
    file_url := .str "https://img.gelbooru.com/1.png"
    tags := .num 5
    title := .undefined }

/-- A state in which `khyle` was committed at time 0. -/
def cachedState : ServerState :=
  { feedCache := FeedCache.empty.set "khyle"
      { isUpdating := false
        rssContent := some "<rss/>"
        lastUpdate := some 0
        postCount := some 1 }
    upstreamCalls := [] }

/-- A post with id 2 and no `tags` property. -/
def secondPost : Post :=
  { id := .num 2
    created_at := .str "2024-01-02 00:00:00"
    file_url := .str "https://img.gelbooru.com/2.png"
    tags := .undefined
    title := .str "Second" }

/-- A configuration without an icon, as `loadArtistConfigs` builds it from
`{ "GELBOORU_TAG": "foo", "ARTIST_NAME": "Foo" }`. -/
def fooConfig : FeedConfig :=
  { ARTIST_NAME := "Foo"
    GELBOORU_TAG := "foo"
    ICON_URL := ""
    FEED_TITLE := "Posts of Foo from Gelbooru"
    FEED_LINK := "https://gelbooru.com/index.php?page=post&s=list&tags=foo+" }

/-- The sample configuration with both credentials set. -/
def credentialEnv : Env :=
  { sampleEnv with GELBOORU_API_KEY := "k3y", GELBOORU_USER_ID := "42" }

/-- The sample configuration with an API key but no user id. -/
def keyOnlyEnv : Env :=
  { sampleEnv with GELBOORU_API_KEY := "k3y" }

/-! ## Basic facts -/

theorem FeedCache.set_same (m : FeedCache) (k : String) (v : CacheEntry) :
    m.set k v k = some v := by
  simp [FeedCache.set]

theorem FeedCache.set_other (m : FeedCache) (k j : String) (v : CacheEntry) (h : j ≠ k) :
    m.set k v j = m j := by
  simp [FeedCache.set, h]

theorem start_of_in_progress (env : Env) (feedConfigs : FeedConfigs) (artistId : String)
    (st : ServerState) (e : CacheEntry) (he : st.feedCache artistId = some e)
    (hu : e.isUpdating = true) :
    updateArtistCache_start env feedConfigs artistId st =
      ((match feedConfigs artistId with
        | none => Started.configNotFound
        | some _ => Started.alreadyInProgress), st) := by
  unfold updateArtistCache_start
  cases feedConfigs artistId with
  | none => rfl
  | some config => simp [he, hu]

theorem start_of_idle (env : Env) (feedConfigs : FeedConfigs) (artistId : String)
    (st : ServerState) (config : FeedConfig) (hc : feedConfigs artistId = some config)
    (hi : Idle st artistId) :
    updateArtistCache_start env feedConfigs artistId st =
      (.awaiting
        { artistId := artistId
          config := config
          cacheData :=
            { (st.feedCache artistId).getD { isUpdating := false } with isUpdating := true } },
       { feedCache := st.feedCache.set artistId
           { (st.feedCache artistId).getD { isUpdating := false } with isUpdating := true }
         upstreamCalls :=
           st.upstreamCalls ++ [fetchGelbooruPosts_request env config.GELBOORU_TAG none] }) := by
  unfold updateArtistCache_start
  have hd : ((st.feedCache artistId).getD { isUpdating := false }).isUpdating = false := by
    cases h : st.feedCache artistId with
    | none => rfl
    | some e => simpa using hi e h
  simp [hc, hd]

theorem resume_entry (env : Env) (p : Pending) (posts : Option UpstreamData)
    (tBuild tCommit : Int) (st : ServerState) :
    ∃ e, (updateArtistCache_resume env p posts tBuild tCommit st).feedCache p.artistId = some e ∧
      e.isUpdating = false := by
  unfold updateArtistCache_resume
  exact ⟨_, FeedCache.set_same _ _ _, rfl⟩

theorem resume_upstreamCalls (env : Env) (p : Pending) (posts : Option UpstreamData)
    (tBuild tCommit : Int) (st : ServerState) :
    (updateArtistCache_resume env p posts tBuild tCommit st).upstreamCalls = st.upstreamCalls := by
  rfl

/-! ## Claims -/

/-- C1. A trigger of `updateArtistCache` for a feed whose entry is in progress
issues no upstream call and leaves the state, hence the whole cache store,
unchanged, both for its synchronous part and for the whole call. Of two
triggers for the same idle, configured feed, the first ends suspended at the
`await` with the entry in progress and exactly one more upstream call in the
log; the second, and any later one that still finds that entry in progress,
stops at the guard and changes nothing. -/
theorem C1_in_progress_guard (env : Env) (feedConfigs : FeedConfigs) (artistId : String) :
    (∀ (st : ServerState) (e : CacheEntry), st.feedCache artistId = some e →
        e.isUpdating = true →
        (updateArtistCache_start env feedConfigs artistId st).2 = st ∧
        (∀ p, (updateArtistCache_start env feedConfigs artistId st).1 ≠ .awaiting p) ∧
        ∀ posts tBuild tCommit,
          updateArtistCache env feedConfigs artistId posts tBuild tCommit st = st) ∧
    (∀ (st : ServerState) (config : FeedConfig), feedConfigs artistId = some config →
        Idle st artistId →
        ∃ p st1, updateArtistCache_start env feedConfigs artistId st = (.awaiting p, st1) ∧
          st1.upstreamCalls =
            st.upstreamCalls ++ [fetchGelbooruPosts_request env config.GELBOORU_TAG none] ∧
          (∃ e1, st1.feedCache artistId = some e1 ∧ e1.isUpdating = true) ∧
          (∀ j, j ≠ artistId → st1.feedCache j = st.feedCache j) ∧
          updateArtistCache_start env feedConfigs artistId st1 = (.alreadyInProgress, st1) ∧
          ∀ st2 : ServerState, st2.feedCache artistId = st1.feedCache artistId →
            updateArtistCache_start env feedConfigs artistId st2 = (.alreadyInProgress, st2)) := by
  refine ⟨?_, ?_⟩
  · intro st e he hu
    have hs := start_of_in_progress env feedConfigs artistId st e he hu
    refine ⟨by rw [hs], ?_, ?_⟩
    · intro p hp
      rw [hs] at hp
      cases hc : feedConfigs artistId <;> simp [hc] at hp
    · intro posts tBuild tCommit
      unfold updateArtistCache
      rw [hs]
      cases hc : feedConfigs artistId <;> rfl
  · intro st config hc hi
    have hs := start_of_idle env feedConfigs artistId st config hc hi
    refine ⟨_, _, hs, rfl, ⟨_, FeedCache.set_same _ _ _, rfl⟩, ?_, ?_, ?_⟩
    · intro j hj
      exact FeedCache.set_other _ _ _ _ hj
    · have := start_of_in_progress env feedConfigs artistId
        { feedCache := st.feedCache.set artistId
            { (st.feedCache artistId).getD { isUpdating := false } with isUpdating := true }
          upstreamCalls :=
            st.upstreamCalls ++ [fetchGelbooruPosts_request env config.GELBOORU_TAG none] }
        _ (FeedCache.set_same _ _ _) rfl
      rw [this, hc]
    · intro st2 h2
      have := start_of_in_progress env feedConfigs artistId st2
        { (st.feedCache artistId).getD { isUpdating := false } with isUpdating := true }
        (by rw [h2]; exact FeedCache.set_same _ _ _) rfl
      rw [this, hc]

theorem diffMinutes_ge_iff (now lastUpdate interval : Int) :
    (((now - lastUpdate : Int) : ℚ) / (1000 * 60) ≥ (interval : ℚ)) ↔
      interval * 60000 ≤ now - lastUpdate := by
  rw [ge_iff_le, le_div_iff₀ (by norm_num)]
  constructor
  · intro h
    have h2 : ((interval * 60000 : Int) : ℚ) ≤ ((now - lastUpdate : Int) : ℚ) := by
      push_cast
      push_cast at h
      linarith
    exact_mod_cast h2
  · intro h
    have h2 : ((interval * 60000 : Int) : ℚ) ≤ ((now - lastUpdate : Int) : ℚ) := by
      exact_mod_cast h
    push_cast at h2
    push_cast
    linarith

theorem needsUpdate_snd (env : Env) (now : Int) (artistId : String) (st : ServerState) :
    (needsUpdate env now artistId st).2 = st := by
  unfold needsUpdate
  split
  · rfl
  · split
    · rfl
    · split <;> rfl

theorem needsUpdate_of_content (env : Env) (now : Int) (artistId : String) (st : ServerState)
    (e : CacheEntry) (t : Int) (he : st.feedCache artistId = some e)
    (ht : e.lastUpdate = some t) (hc : truthyContent e.rssContent = true) :
    needsUpdate env now artistId st =
      (decide (env.UPDATE_INTERVAL_MINUTES * 60000 ≤ now - t), st) := by
  unfold needsUpdate
  simp only [he, ht, hc, Bool.not_true, Bool.false_eq_true, if_false]
  congr 1
  exact decide_eq_decide.mpr (diffMinutes_ge_iff now t env.UPDATE_INTERVAL_MINUTES)

theorem needsUpdate_of_no_content (env : Env) (now : Int) (artistId : String)
    (st : ServerState) (e : CacheEntry) (he : st.feedCache artistId = some e)
    (hc : truthyContent e.rssContent = false) :
    needsUpdate env now artistId st = (true, st) := by
  unfold needsUpdate
  simp only [he]
  cases e.lastUpdate with
  | none => rfl
  | some t => simp [hc]

/-- C2. A call of `updateArtistCache` for a configured, idle feed passes the
guard and suspends; whatever the upstream call then resolves to (posts, `null`,
no posts) and whether or not rendering throws, and whatever state the
continuation finds, the continuation leaves an entry for the feed whose
`isUpdating` is `false`. In particular the whole call does. -/
theorem C2_in_progress_cleared (env : Env) (feedConfigs : FeedConfigs) (artistId : String)
    (config : FeedConfig) (st : ServerState) (hc : feedConfigs artistId = some config)
    (hi : Idle st artistId) :
    (∃ p st1, updateArtistCache_start env feedConfigs artistId st = (.awaiting p, st1) ∧
      p.artistId = artistId ∧
      ∀ posts tBuild tCommit (st2 : ServerState),
        ∃ e, (updateArtistCache_resume env p posts tBuild tCommit st2).feedCache artistId =
            some e ∧ e.isUpdating = false) ∧
    ∀ posts tBuild tCommit,
      ∃ e, (updateArtistCache env feedConfigs artistId posts tBuild tCommit st).feedCache
          artistId = some e ∧ e.isUpdating = false := by
  have hs := start_of_idle env feedConfigs artistId st config hc hi
  refine ⟨⟨_, _, hs, rfl, ?_⟩, ?_⟩
  · intro posts tBuild tCommit st2
    exact resume_entry env _ posts tBuild tCommit st2
  · intro posts tBuild tCommit
    unfold updateArtistCache
    rw [hs]
    exact resume_entry env _ posts tBuild tCommit _

/-- C3. `needsUpdate` answers `true` when the store has no entry for the id,
when the entry has no rendered content (`rssContent` unset or empty), when it
has no last-update timestamp, and when the milliseconds elapsed since the last
update are at least the interval in minutes times 60000; for an entry with
rendered content and a last-update timestamp it answers `false` when the
elapsed time is strictly below the interval; and it always returns the state it
was given. -/
theorem C3_needsUpdate (env : Env) (now : Int) (artistId : String) (st : ServerState) :
    (st.feedCache artistId = none → (needsUpdate env now artistId st).1 = true) ∧
    (∀ e, st.feedCache artistId = some e → truthyContent e.rssContent = false →
      (needsUpdate env now artistId st).1 = true) ∧
    (∀ e, st.feedCache artistId = some e → e.lastUpdate = none →
      (needsUpdate env now artistId st).1 = true) ∧
    (∀ e t, st.feedCache artistId = some e → e.lastUpdate = some t →
      env.UPDATE_INTERVAL_MINUTES * 60000 ≤ now - t →
      (needsUpdate env now artistId st).1 = true) ∧
    (∀ e t, st.feedCache artistId = some e → e.lastUpdate = some t →
      truthyContent e.rssContent = true →
      now - t < env.UPDATE_INTERVAL_MINUTES * 60000 →
      (needsUpdate env now artistId st).1 = false) ∧
    (needsUpdate env now artistId st).2 = st := by
  refine ⟨?_, ?_, ?_, ?_, ?_, needsUpdate_snd env now artistId st⟩
  · intro h
    simp [needsUpdate, h]
  · intro e he hc
    rw [needsUpdate_of_no_content env now artistId st e he hc]
  · intro e he hl
    simp [needsUpdate, he, hl]
  · intro e t he ht hge
    cases hcont : truthyContent e.rssContent with
    | false => rw [needsUpdate_of_no_content env now artistId st e he hcont]
    | true =>
      rw [needsUpdate_of_content env now artistId st e t he ht hcont]
      simpa using hge
  · intro e t he ht hcont hlt
    rw [needsUpdate_of_content env now artistId st e t he ht hcont]
    simpa using hlt

theorem xmlDeclaration_append_ne (body : String) : xmlDeclaration ++ body ≠ "" := by
  intro h
  have := congrArg String.length h
  rw [String.length_append] at this
  have hd : xmlDeclaration.length = 38 := by decide
  have h0 : ("" : String).length = 0 := rfl
  omega

theorem truthyContent_document (body : String) :
    truthyContent (some (xmlDeclaration ++ body)) = true := by
  simp [truthyContent, xmlDeclaration_append_ne]

theorem generateRSSFeed_ok_document (env : Env) (now : Int) (q : Post) (qs : List Post)
    (config : FeedConfig) (artistId : String) (r : Option String)
    (h : generateRSSFeed env now (some { post := some (q :: qs) }) config artistId = .ok r) :
    ∃ body, r = some (xmlDeclaration ++ body) := by
  unfold generateRSSFeed generateRSSFeed_data buildObject at h
  simp only [bind, Except.bind, pure, Except.pure] at h
  cases hi : rssItems env config artistId (q :: qs) with
  | error m => simp [hi] at h
  | ok items =>
    simp only [hi] at h
    cases hx : env.xmlRoot (rssData env now config artistId items) with
    | error m => simp [hx, Except.map] at h
    | ok body =>
      simp only [hx, Except.map] at h
      exact ⟨body, by injection h with h; exact h.symm⟩

theorem resume_commit (env : Env) (p : Pending) (q : Post) (qs : List Post)
    (tBuild tCommit : Int) (st : ServerState) (r : Option String)
    (h : generateRSSFeed env tBuild (some { post := some (q :: qs) }) p.config p.artistId =
      .ok r) :
    updateArtistCache_resume env p (some { post := some (q :: qs) }) tBuild tCommit st =
      { feedCache := st.feedCache.set p.artistId
          { isUpdating := false
            rssContent := r
            lastUpdate := some tCommit
            postCount := some (q :: qs).length }
        upstreamCalls := st.upstreamCalls } := by
  unfold updateArtistCache_resume
  simp [h, bind, Except.bind, pure, Except.pure]

theorem resume_throw (env : Env) (p : Pending) (q : Post) (qs : List Post)
    (tBuild tCommit : Int) (st : ServerState) (m : String)
    (h : generateRSSFeed env tBuild (some { post := some (q :: qs) }) p.config p.artistId =
      .error m) :
    updateArtistCache_resume env p (some { post := some (q :: qs) }) tBuild tCommit st =
      { feedCache := st.feedCache.set p.artistId { p.cacheData with isUpdating := false }
        upstreamCalls := st.upstreamCalls } := by
  unfold updateArtistCache_resume
  simp [h, bind, Except.bind]

theorem resume_no_posts (env : Env) (p : Pending) (posts : Option UpstreamData)
    (tBuild tCommit : Int) (st : ServerState)
    (h : posts = none ∨ posts = some { post := none } ∨ posts = some { post := some [] }) :
    updateArtistCache_resume env p posts tBuild tCommit st =
      { feedCache := st.feedCache.set p.artistId { p.cacheData with isUpdating := false }
        upstreamCalls := st.upstreamCalls } := by
  unfold updateArtistCache_resume
  rcases h with h | h | h <;> subst h <;> simp [pure, Except.pure]

theorem cycle_of_idle (env : Env) (feedConfigs : FeedConfigs) (artistId : String)
    (config : FeedConfig) (posts : Option UpstreamData) (tBuild tCommit : Int)
    (st : ServerState) (hc : feedConfigs artistId = some config) (hi : Idle st artistId) :
    updateArtistCache env feedConfigs artistId posts tBuild tCommit st =
      updateArtistCache_resume env
        { artistId := artistId
          config := config
          cacheData :=
            { (st.feedCache artistId).getD { isUpdating := false } with isUpdating := true } }
        posts tBuild tCommit
        { feedCache := st.feedCache.set artistId
            { (st.feedCache artistId).getD { isUpdating := false } with isUpdating := true }
          upstreamCalls :=
            st.upstreamCalls ++ [fetchGelbooruPosts_request env config.GELBOORU_TAG none] } := by
  unfold updateArtistCache
  rw [start_of_idle env feedConfigs artistId st config hc hi]

theorem cycle_commit_entry (env : Env) (feedConfigs : FeedConfigs) (artistId : String)
    (config : FeedConfig) (q : Post) (qs : List Post) (tBuild tCommit : Int)
    (st : ServerState) (r : Option String) (hc : feedConfigs artistId = some config)
    (hi : Idle st artistId)
    (hr : generateRSSFeed env tBuild (some { post := some (q :: qs) }) config artistId =
      .ok r) :
    (updateArtistCache env feedConfigs artistId (some { post := some (q :: qs) }) tBuild
        tCommit st).feedCache artistId =
      some { isUpdating := false
             rssContent := r
             lastUpdate := some tCommit
             postCount := some (q :: qs).length } := by
  rw [cycle_of_idle env feedConfigs artistId config _ tBuild tCommit st hc hi]
  have h := resume_commit env
    { artistId := artistId
      config := config
      cacheData :=
        { (st.feedCache artistId).getD { isUpdating := false } with isUpdating := true } }
    q qs tBuild tCommit
    { feedCache := st.feedCache.set artistId
        { (st.feedCache artistId).getD { isUpdating := false } with isUpdating := true }
      upstreamCalls :=
        st.upstreamCalls ++ [fetchGelbooruPosts_request env config.GELBOORU_TAG none] }
    r hr
  rw [h]
  exact FeedCache.set_same _ _ _

theorem cycle_abort_entry (env : Env) (feedConfigs : FeedConfigs) (artistId : String)
    (config : FeedConfig) (posts : Option UpstreamData) (tBuild tCommit : Int)
    (st : ServerState) (hc : feedConfigs artistId = some config) (hi : Idle st artistId)
    (h : posts = none ∨ posts = some { post := none } ∨ posts = some { post := some [] }) :
    (updateArtistCache env feedConfigs artistId posts tBuild tCommit st).feedCache artistId =
      some { (st.feedCache artistId).getD { isUpdating := false } with isUpdating := false } := by
  rw [cycle_of_idle env feedConfigs artistId config _ tBuild tCommit st hc hi]
  have h2 := resume_no_posts env
    { artistId := artistId
      config := config
      cacheData :=
        { (st.feedCache artistId).getD { isUpdating := false } with isUpdating := true } }
    posts tBuild tCommit
    { feedCache := st.feedCache.set artistId
        { (st.feedCache artistId).getD { isUpdating := false } with isUpdating := true }
      upstreamCalls :=
        st.upstreamCalls ++ [fetchGelbooruPosts_request env config.GELBOORU_TAG none] }
    h
  rw [h2]
  exact FeedCache.set_same _ _ _

/-- C4. With a positive interval, after a cycle for a configured, idle feed that
commits at time `t` (the upstream returned at least one post and rendering
returned), `needsUpdate` for that feed is `false` at time `t`, and at any time
`t'` it is `true` exactly when `t' - t` is at least the interval in minutes
(times 60000, in milliseconds); in particular it is `true` when `t' - t` equals
the interval. -/
theorem C4_fresh_after_commit (env : Env) (feedConfigs : FeedConfigs) (artistId : String)
    (config : FeedConfig) (q : Post) (qs : List Post) (tBuild t : Int) (st : ServerState)
    (r : Option String) (hpos : 0 < env.UPDATE_INTERVAL_MINUTES)
    (hc : feedConfigs artistId = some config) (hi : Idle st artistId)
    (hr : generateRSSFeed env tBuild (some { post := some (q :: qs) }) config artistId =
      .ok r) :
    (needsUpdate env t artistId
      (updateArtistCache env feedConfigs artistId (some { post := some (q :: qs) }) tBuild t
        st)).1 = false ∧
    (∀ t2 : Int, (needsUpdate env t2 artistId
      (updateArtistCache env feedConfigs artistId (some { post := some (q :: qs) }) tBuild t
        st)).1 = true ↔ env.UPDATE_INTERVAL_MINUTES * 60000 ≤ t2 - t) ∧
    (needsUpdate env (t + env.UPDATE_INTERVAL_MINUTES * 60000) artistId
      (updateArtistCache env feedConfigs artistId (some { post := some (q :: qs) }) tBuild t
        st)).1 = true := by
  have he := cycle_commit_entry env feedConfigs artistId config q qs tBuild t st r hc hi hr
  obtain ⟨body, rfl⟩ := generateRSSFeed_ok_document env tBuild q qs config artistId r hr
  have hn : ∀ t2 : Int, (needsUpdate env t2 artistId
      (updateArtistCache env feedConfigs artistId (some { post := some (q :: qs) }) tBuild t
        st)).1 = decide (env.UPDATE_INTERVAL_MINUTES * 60000 ≤ t2 - t) := by
    intro t2
    rw [needsUpdate_of_content env t2 artistId _ _ t he rfl (truthyContent_document body)]
  refine ⟨?_, ?_, ?_⟩
  · rw [hn]
    simp only [sub_self, decide_eq_false_iff_not, not_le]
    omega
  · intro t2
    rw [hn]
    simp
  · rw [hn]
    simp

/-- C5. For a configured feed, a cycle that passes the guard and whose upstream
call fails (`null`) or returns no posts leaves the feed's `rssContent`,
`lastUpdate` and `postCount` as they were before the cycle. If the feed had no
rendered content before, the `/rss` request that runs such a cycle answers 404
with the body `No RSS content available for: <id>`. -/
theorem C5_failed_cycle_frame (env : Env) (feedConfigs : FeedConfigs) (artistId : String)
    (config : FeedConfig) (posts : Option UpstreamData) (tBuild tCommit : Int)
    (hc : feedConfigs artistId = some config)
    (hf : posts = none ∨ posts = some { post := none } ∨ posts = some { post := some [] }) :
    (∀ st : ServerState, Idle st artistId →
      rssContentOf (updateArtistCache env feedConfigs artistId posts tBuild tCommit st)
          artistId = rssContentOf st artistId ∧
      lastUpdateOf (updateArtistCache env feedConfigs artistId posts tBuild tCommit st)
          artistId = lastUpdateOf st artistId ∧
      postCountOf (updateArtistCache env feedConfigs artistId posts tBuild tCommit st)
          artistId = postCountOf st artistId) ∧
    (∀ (st : ServerState) (now : Int), truthyContent (rssContentOf st artistId) = false →
      (rssHandler env feedConfigs artistId now posts tBuild tCommit st).1 =
        { status := 404, headers := [], body := "No RSS content available for: " ++ artistId }) := by
  refine ⟨?_, ?_⟩
  · intro st hi
    have he := cycle_abort_entry env feedConfigs artistId config posts tBuild tCommit st hc hi hf
    unfold rssContentOf lastUpdateOf postCountOf
    rw [he]
    cases st.feedCache artistId <;> simp
  · intro st now hno
    have hstale : needsUpdate env now artistId st = (true, st) := by
      cases he : st.feedCache artistId with
      | none => simp [needsUpdate, he]
      | some e =>
        apply needsUpdate_of_no_content env now artistId st e he
        simpa [rssContentOf, he] using hno
    have hafter : truthyContent (rssContentOf
        (updateArtistCache env feedConfigs artistId posts tBuild tCommit st) artistId) = false := by
      by_cases hi : Idle st artistId
      · have he := cycle_abort_entry env feedConfigs artistId config posts tBuild tCommit st
          hc hi hf
        unfold rssContentOf at hno ⊢
        rw [he]
        cases h : st.feedCache artistId with
        | none => rfl
        | some e => simpa [h] using hno
      · unfold Idle at hi
        push_neg at hi
        obtain ⟨e, he, hu⟩ := hi
        have hu2 : e.isUpdating = true := by simpa using hu
        have hs := start_of_in_progress env feedConfigs artistId st e he hu2
        have : updateArtistCache env feedConfigs artistId posts tBuild tCommit st = st := by
          unfold updateArtistCache
          rw [hs, hc]
        rw [this]
        exact hno
    unfold rssHandler
    simp only [hc, hstale, if_true]
    unfold rssContentOf at hafter
    cases h : (updateArtistCache env feedConfigs artistId posts tBuild tCommit st).feedCache
        artistId with
    | none => rfl
    | some e =>
      have : truthyContent e.rssContent = false := by simpa [h] using hafter
      simp [this]

/-- C6 (amended). For a configured, idle feed, a cycle whose upstream call
returns a non-empty post list and whose rendering does not throw commits:
afterwards the entry's `rssContent` is the document `generateRSSFeed` returned
for those posts, the feed's config and its id, `postCount` is the number of
posts, `lastUpdate` is the commit time, and `isUpdating` is `false`. -/
theorem C6_commit_when_rendered (env : Env) (feedConfigs : FeedConfigs) (artistId : String)
    (config : FeedConfig) (q : Post) (qs : List Post) (tBuild tCommit : Int)
    (st : ServerState) (hc : feedConfigs artistId = some config) (hi : Idle st artistId)
    (hr : ∀ m, generateRSSFeed env tBuild (some { post := some (q :: qs) }) config artistId ≠
      .error m) :
    Committed env config artistId (q :: qs) tBuild tCommit
      (updateArtistCache env feedConfigs artistId (some { post := some (q :: qs) }) tBuild
        tCommit st) := by
  cases hg : generateRSSFeed env tBuild (some { post := some (q :: qs) }) config artistId with
  | error m => exact absurd hg (hr m)
  | ok r =>
    obtain ⟨body, rfl⟩ := generateRSSFeed_ok_document env tBuild q qs config artistId r hg
    exact ⟨_, _, cycle_commit_entry env feedConfigs artistId config q qs tBuild tCommit st _
      hc hi hg, hg, rfl, rfl, rfl, rfl⟩

/-! ## Renderer facts -/

theorem rssItem_ok (env : Env) (config : FeedConfig) (artistId : String) (post : Post)
    (it : RssItem) (h : rssItem env config artistId post = .ok it) :
    ∃ tags, postTags post.tags = .ok tags ∧
      it =
        { title := if post.title.truthy then post.title else .str ("Post " ++ post.id.toStr)
          description := "<img src=\"" ++ post.file_url.toStr ++
            "\" referrerpolicy=\"no-referrer\"><br/>Tags: " ++ tags
          link := postViewLink post.id
          guid := { text := "gelbooru:" ++ artistId ++ ":" ++ post.id.toStr, isPermaLink := "false" }
          pubDate := toRFC822Date env post.created_at
          author := config.ARTIST_NAME } := by
  unfold rssItem at h
  simp only [bind, Except.bind, pure, Except.pure] at h
  cases ht : postTags post.tags with
  | error m => simp [ht] at h
  | ok tags =>
    simp only [ht] at h
    exact ⟨tags, rfl, by injection h with h; exact h.symm⟩

theorem postTags_usable (p : Post) (h : p.tagsUsable) : ∃ tags, postTags p.tags = .ok tags := by
  unfold postTags
  rcases h with h | ⟨s, h⟩
  · exact ⟨"", by simp [h]⟩
  · rw [h]
    by_cases hs : (JsVal.str s).truthy = true
    · exact ⟨normalizeTagString s, by simp [hs]⟩
    · exact ⟨"", by simp [hs]⟩

theorem rssItem_usable (env : Env) (config : FeedConfig) (artistId : String) (p : Post)
    (h : p.tagsUsable) : ∃ it, rssItem env config artistId p = .ok it := by
  obtain ⟨tags, ht⟩ := postTags_usable p h
  unfold rssItem
  simp only [bind, Except.bind, pure, Except.pure, ht]
  exact ⟨_, rfl⟩

theorem rssItems_cons (env : Env) (config : FeedConfig) (artistId : String) (q : Post)
    (qs : List Post) :
    rssItems env config artistId (q :: qs) =
      match rssItem env config artistId q with
      | .error m => .error m
      | .ok it =>
        match rssItems env config artistId qs with
        | .error m => .error m
        | .ok its => .ok (it :: its) := by
  unfold rssItems
  rw [List.mapM_cons]
  cases rssItem env config artistId q with
  | error m => rfl
  | ok it =>
    cases List.mapM (rssItem env config artistId) qs with
    | error m => rfl
    | ok its => rfl

theorem rssItems_ok (env : Env) (config : FeedConfig) (artistId : String) :
    ∀ (posts : List Post) (items : List RssItem),
      rssItems env config artistId posts = .ok items →
      List.Forall₂ (fun post it => rssItem env config artistId post = .ok it) posts items := by
  intro posts
  induction posts with
  | nil =>
    intro items h
    simp only [rssItems, List.mapM_nil, pure, Except.pure] at h
    injection h with h
    subst h
    exact List.Forall₂.nil
  | cons q qs ih =>
    intro items h
    rw [rssItems_cons] at h
    cases hq : rssItem env config artistId q with
    | error m => simp [hq] at h
    | ok it =>
      cases hqs : rssItems env config artistId qs with
      | error m => simp [hq, hqs] at h
      | ok its =>
        simp only [hq, hqs] at h
        injection h with h
        subst h
        exact List.Forall₂.cons hq (ih its hqs)

theorem rssItems_usable (env : Env) (config : FeedConfig) (artistId : String) :
    ∀ posts : List Post, (∀ p ∈ posts, p.tagsUsable) →
      ∃ items, rssItems env config artistId posts = .ok items := by
  intro posts
  induction posts with
  | nil => intro _; exact ⟨[], rfl⟩
  | cons q qs ih =>
    intro h
    obtain ⟨it, hq⟩ := rssItem_usable env config artistId q (h q (List.mem_cons_self _ _))
    obtain ⟨its, hqs⟩ := ih (fun p hp => h p (List.mem_cons_of_mem _ hp))
    refine ⟨it :: its, ?_⟩
    rw [rssItems_cons, hq, hqs]

theorem generateRSSFeed_data_ok (env : Env) (now : Int) (q : Post) (qs : List Post)
    (config : FeedConfig) (artistId : String) (d : Option RssData)
    (h : generateRSSFeed_data env now (some { post := some (q :: qs) }) config artistId =
      .ok d) :
    ∃ items, rssItems env config artistId (q :: qs) = .ok items ∧
      d = some (rssData env now config artistId items) := by
  unfold generateRSSFeed_data at h
  simp only [bind, Except.bind, pure, Except.pure] at h
  cases hi : rssItems env config artistId (q :: qs) with
  | error m => simp [hi] at h
  | ok items =>
    simp only [hi] at h
    exact ⟨items, rfl, by injection h with h; exact h.symm⟩

theorem forall₂_map_eq {α β γ : Type} (f : β → γ) (g : α → γ) :
    ∀ {l₁ : List α} {l₂ : List β}, List.Forall₂ (fun a b => f b = g a) l₁ l₂ →
      l₂.map f = l₁.map g := by
  intro l₁ l₂ h
  induction h with
  | nil => rfl
  | cons h _ ih => simp only [List.map_cons, h, ih]

theorem forall₂_getElem? {α β : Type} {R : α → β → Prop} :
    ∀ {l₁ : List α} {l₂ : List β}, List.Forall₂ R l₁ l₂ →
      ∀ (i : Nat) (a : α), l₁[i]? = some a → ∃ b, l₂[i]? = some b ∧ R a b := by
  intro l₁ l₂ h
  induction h with
  | nil => intro i a ha; simp at ha
  | cons hab _ ih =>
    intro i a ha
    cases i with
    | zero =>
      simp only [List.getElem?_cons_zero, Option.some.injEq] at ha
      subst ha
      exact ⟨_, by simp, hab⟩
    | succ i =>
      simp only [List.getElem?_cons_succ] at ha
      obtain ⟨b, hb, hr⟩ := ih i a ha
      exact ⟨b, by simpa using hb, hr⟩

/-- C7. When `generateRSSFeed` builds the feed object for a non-empty post list,
the channel's `item` list has the length of the post list and its i-th element
comes from the i-th post: its guid text is `gelbooru:<feedId>:<post id>` with
`isPermaLink` `false`, and its link is the view page of that post id. The feed
object is built whenever every post's `tags` is falsy or a string. -/
theorem C7_one_item_per_post (env : Env) (now : Int) (q : Post) (qs : List Post)
    (config : FeedConfig) (artistId : String) :
    ((∀ p ∈ q :: qs, p.tagsUsable) →
      ∃ d, generateRSSFeed_data env now (some { post := some (q :: qs) }) config artistId =
        .ok (some d)) ∧
    ∀ d, generateRSSFeed_data env now (some { post := some (q :: qs) }) config artistId =
        .ok (some d) →
      d.channel.item.length = (q :: qs).length ∧
      d.channel.item.map (·.guid) =
        (q :: qs).map (fun post =>
          { text := "gelbooru:" ++ artistId ++ ":" ++ post.id.toStr, isPermaLink := "false" }) ∧
      d.channel.item.map (·.link) = (q :: qs).map (fun post => postViewLink post.id) ∧
      ∀ (i : Nat) (post : Post), (q :: qs)[i]? = some post →
        ∃ it, d.channel.item[i]? = some it ∧
          it.guid.text = "gelbooru:" ++ artistId ++ ":" ++ post.id.toStr ∧
          it.guid.isPermaLink = "false" ∧
          it.link = postViewLink post.id := by
  refine ⟨?_, ?_⟩
  · intro hu
    obtain ⟨items, hi⟩ := rssItems_usable env config artistId (q :: qs) hu
    refine ⟨rssData env now config artistId items, ?_⟩
    unfold generateRSSFeed_data
    simp only [bind, Except.bind, pure, Except.pure, hi]
  · intro d hd
    obtain ⟨items, hi, hd2⟩ := generateRSSFeed_data_ok env now q qs config artistId _ hd
    injection hd2 with hd2
    have hitem : d.channel.item = items := by
      rw [hd2]
      by_cases hicon : config.ICON_URL = "" <;> simp [rssData, hicon]
    rw [hitem]
    have hf := rssItems_ok env config artistId (q :: qs) items hi
    have hf2 : List.Forall₂ (fun post it =>
        it.guid = { text := "gelbooru:" ++ artistId ++ ":" ++ post.id.toStr,
                    isPermaLink := "false" } ∧ it.link = postViewLink post.id)
        (q :: qs) items := by
      refine hf.imp ?_
      intro post it h
      obtain ⟨tags, _, hit⟩ := rssItem_ok env config artistId post it h
      rw [hit]
      exact ⟨rfl, rfl⟩
    refine ⟨hf.length_eq.symm, ?_, ?_, ?_⟩
    · exact forall₂_map_eq (·.guid)
        (fun post : Post =>
          ({ text := "gelbooru:" ++ artistId ++ ":" ++ post.id.toStr,
             isPermaLink := "false" } : Guid))
        (hf2.imp (fun _ _ h => h.1))
    · exact forall₂_map_eq (·.link) (fun post : Post => postViewLink post.id)
        (hf2.imp (fun _ _ h => h.2))
    · intro i post hp
      obtain ⟨it, hit, hg, hl⟩ := forall₂_getElem? hf2 i post hp
      exact ⟨it, hit, by rw [hg], by rw [hg], hl⟩

/-- C9. The feed object `generateRSSFeed` builds for a non-empty post list is
`rssData` of the rendered items, and for every list of items the channel of
`rssData` has an `image` key exactly when the config's `ICON_URL` is non-empty:
with an empty `ICON_URL` the key is absent (not present with an `undefined`
value), and otherwise it holds the block whose `url` is `ICON_URL`, whose
`title` is `FEED_TITLE` and whose `link` is `FEED_LINK`. -/
theorem C9_image_block (env : Env) (now : Int) (config : FeedConfig) (artistId : String) :
    (∀ (q : Post) (qs : List Post) (d : RssData),
      generateRSSFeed_data env now (some { post := some (q :: qs) }) config artistId =
        .ok (some d) →
      ∃ items, rssItems env config artistId (q :: qs) = .ok items ∧
        d = rssData env now config artistId items) ∧
    ∀ items : List RssItem,
      ((rssData env now config artistId items).channel.image ≠ .absent ↔
        config.ICON_URL ≠ "") ∧
      (config.ICON_URL = "" →
        (rssData env now config artistId items).channel.image = .absent) ∧
      (config.ICON_URL ≠ "" →
        (rssData env now config artistId items).channel.image =
          .val { url := config.ICON_URL, title := config.FEED_TITLE,
                 link := config.FEED_LINK }) := by
  refine ⟨?_, ?_⟩
  · intro q qs d hd
    obtain ⟨items, hi, hd2⟩ := generateRSSFeed_data_ok env now q qs config artistId _ hd
    exact ⟨items, hi, by injection hd2⟩
  · intro items
    by_cases h : config.ICON_URL = ""
    · have : (rssData env now config artistId items).channel.image = .absent := by
        simp [rssData, h, Slot.delete]
      exact ⟨by simp [this, h], fun _ => this, fun h2 => absurd h h2⟩
    · have : (rssData env now config artistId items).channel.image =
          .val { url := config.ICON_URL, title := config.FEED_TITLE,
                 link := config.FEED_LINK } := by
        simp [rssData, h]
      exact ⟨by simp [this, h], fun h2 => absurd h2 h, fun _ => this⟩

/-- C10. `generateRSSFeed` returns `null` for a `null` upstream result, for a
result without a `post` list and for a result whose `post` list is empty; and
whenever it returns a document, the upstream result holds a post list with at
least one post (for such a list it never returns `null`). -/
theorem C10_no_document_without_posts (env : Env) (now : Int) (config : FeedConfig)
    (artistId : String) :
    generateRSSFeed env now none config artistId = .ok none ∧
    generateRSSFeed env now (some { post := none }) config artistId = .ok none ∧
    generateRSSFeed env now (some { post := some [] }) config artistId = .ok none ∧
    (∀ posts doc, generateRSSFeed env now posts config artistId = .ok (some doc) →
      ∃ q qs, posts = some { post := some (q :: qs) }) ∧
    ∀ q qs, generateRSSFeed env now (some { post := some (q :: qs) }) config artistId ≠
      .ok none := by
  refine ⟨rfl, rfl, rfl, ?_, ?_⟩
  · intro posts doc h
    match posts, h with
    | none, h => exact absurd h (by simp [generateRSSFeed, generateRSSFeed_data, bind, Except.bind, pure, Except.pure])
    | some { post := none }, h => exact absurd h (by simp [generateRSSFeed, generateRSSFeed_data, bind, Except.bind, pure, Except.pure])
    | some { post := some [] }, h => exact absurd h (by simp [generateRSSFeed, generateRSSFeed_data, bind, Except.bind, pure, Except.pure])
    | some { post := some (q :: qs) }, _ => exact ⟨q, qs, rfl⟩
  · intro q qs h
    obtain ⟨body, hb⟩ := generateRSSFeed_ok_document env now q qs config artistId none h
    exact absurd hb (by simp)

/-! ## Tag normalisation facts -/

theorem isJsWhitespace_space : isJsWhitespace ' ' = true := by decide

theorem replace_nil (b : Bool) : replaceWhitespaceRuns b [] = [] := by
  cases b <;> rfl

theorem replace_ws_inRun (c : Char) (cs : List Char) (h : isJsWhitespace c = true) :
    replaceWhitespaceRuns true (c :: cs) = replaceWhitespaceRuns true cs := by
  simp [replaceWhitespaceRuns, h]

theorem replace_ws_start (c : Char) (cs : List Char) (h : isJsWhitespace c = true) :
    replaceWhitespaceRuns false (c :: cs) = ' ' :: replaceWhitespaceRuns true cs := by
  simp [replaceWhitespaceRuns, h]

theorem replace_nonws (b : Bool) (c : Char) (cs : List Char) (h : isJsWhitespace c = false) :
    replaceWhitespaceRuns b (c :: cs) = c :: replaceWhitespaceRuns false cs := by
  cases b <;> simp [replaceWhitespaceRuns, h]

theorem replace_mem_ws (cs : List Char) :
    ∀ (b : Bool) (c : Char), c ∈ replaceWhitespaceRuns b cs → isJsWhitespace c = true →
      c = ' ' := by
  induction cs with
  | nil =>
    intro b c hc
    rw [replace_nil] at hc
    exact absurd hc (List.not_mem_nil c)
  | cons a as ih =>
    intro b c hc hw
    cases ha : isJsWhitespace a with
    | true =>
      cases b with
      | true =>
        rw [replace_ws_inRun a as ha] at hc
        exact ih true c hc hw
      | false =>
        rw [replace_ws_start a as ha] at hc
        rcases List.mem_cons.mp hc with h | h
        · exact h
        · exact ih true c h hw
    | false =>
      rw [replace_nonws b a as ha] at hc
      rcases List.mem_cons.mp hc with h | h
      · rw [h, ha] at hw
        exact absurd hw (by simp)
      · exact ih false c h hw

theorem replace_inRun_head (cs : List Char) :
    ∀ c, (replaceWhitespaceRuns true cs).head? = some c → isJsWhitespace c = false := by
  induction cs with
  | nil =>
    intro c hc
    rw [replace_nil] at hc
    simp at hc
  | cons a as ih =>
    intro c hc
    cases ha : isJsWhitespace a with
    | true =>
      rw [replace_ws_inRun a as ha] at hc
      exact ih c hc
    | false =>
      rw [replace_nonws true a as ha] at hc
      simp only [List.head?_cons, Option.some.injEq] at hc
      rw [← hc]
      exact ha

theorem replace_chain (cs : List Char) :
    ∀ b : Bool, (replaceWhitespaceRuns b cs).Chain'
      (fun x y => ¬ (isJsWhitespace x = true ∧ isJsWhitespace y = true)) := by
  induction cs with
  | nil =>
    intro b
    rw [replace_nil]
    exact List.chain'_nil
  | cons a as ih =>
    intro b
    cases ha : isJsWhitespace a with
    | true =>
      cases b with
      | true =>
        rw [replace_ws_inRun a as ha]
        exact ih true
      | false =>
        rw [replace_ws_start a as ha, List.chain'_cons']
        refine ⟨?_, ih true⟩
        intro y hy h
        have := replace_inRun_head as y (by simpa using hy)
        rw [this] at h
        exact absurd h.2 (by simp)
    | false =>
      rw [replace_nonws b a as ha, List.chain'_cons']
      refine ⟨?_, ih false⟩
      intro y _ h
      rw [ha] at h
      exact absurd h.1 (by simp)

theorem dropWhile_of_head (p : Char → Bool) (l : List Char)
    (h : ∀ c, l.head? = some c → p c = false) : l.dropWhile p = l := by
  cases l with
  | nil => rfl
  | cons a as =>
    have := h a rfl
    simp [List.dropWhile, this]

theorem dropWhile_replace (cs : List Char) :
    (replaceWhitespaceRuns false cs).dropWhile isJsWhitespace =
      replaceWhitespaceRuns true cs := by
  cases cs with
  | nil => rfl
  | cons a as =>
    cases ha : isJsWhitespace a with
    | true =>
      rw [replace_ws_start a as ha, replace_ws_inRun a as ha]
      simp only [List.dropWhile, isJsWhitespace_space]
      exact dropWhile_of_head _ _ (replace_inRun_head as)
    | false =>
      rw [replace_nonws false a as ha, replace_nonws true a as ha]
      simp [List.dropWhile, ha]

theorem rdropWhile_cons (p : Char → Bool) (a : Char) (l : List Char) :
    (a :: l).rdropWhile p =
      if l.rdropWhile p = [] then [a].rdropWhile p else a :: l.rdropWhile p := by
  induction l using List.reverseRecOn with
  | nil => simp
  | append_singleton l b ih =>
    rw [← List.cons_append]
    by_cases hb : p b = true
    · rw [List.rdropWhile_concat_pos p (a :: l) b hb, List.rdropWhile_concat_pos p l b hb]
      exact ih
    · rw [List.rdropWhile_concat_neg p (a :: l) b hb, List.rdropWhile_concat_neg p l b hb]
      simp

theorem rdropWhile_cons_nonws (a : Char) (l : List Char) (h : isJsWhitespace a = false) :
    (a :: l).rdropWhile isJsWhitespace = a :: l.rdropWhile isJsWhitespace := by
  rw [rdropWhile_cons]
  by_cases hl : l.rdropWhile isJsWhitespace = []
  · simp [hl, List.rdropWhile_singleton, h]
  · simp [hl]

theorem rdropWhile_cons_ws (a : Char) (l : List Char) (h : isJsWhitespace a = true) :
    (a :: l).rdropWhile isJsWhitespace =
      if l.rdropWhile isJsWhitespace = [] then [] else a :: l.rdropWhile isJsWhitespace := by
  rw [rdropWhile_cons]
  by_cases hl : l.rdropWhile isJsWhitespace = []
  · simp [hl, List.rdropWhile_singleton, h]
  · simp [hl]

theorem joinWithSpaces_nil : joinWithSpaces [] = [] := rfl

theorem joinWithSpaces_cons (r : List Char) (runs : List (List Char)) :
    joinWithSpaces (r :: runs) =
      r ++ (if runs = [] then [] else ' ' :: joinWithSpaces runs) := by
  cases runs with
  | nil => simp [joinWithSpaces, List.intercalate, List.intersperse]
  | cons r2 rs => simp [joinWithSpaces, List.intercalate, List.intersperse]

theorem joinWithSpaces_eq_nil (runs : List (List Char)) (h : ∀ r ∈ runs, r ≠ []) :
    joinWithSpaces runs = [] ↔ runs = [] := by
  cases runs with
  | nil => simp [joinWithSpaces_nil]
  | cons r rs =>
    rw [joinWithSpaces_cons]
    have := h r (List.mem_cons_self _ _)
    simp [this]

theorem nonWhitespaceRuns_ne_nil (cs : List Char) : ∀ r ∈ nonWhitespaceRuns cs, r ≠ [] := by
  intro r hr
  unfold nonWhitespaceRuns at hr
  have := (List.mem_filter.mp hr).2
  intro h
  rw [h] at this
  simp at this

theorem nonWhitespaceRuns_nil : nonWhitespaceRuns [] = [] := by
  simp [nonWhitespaceRuns, List.splitOnP_nil]

theorem nonWhitespaceRuns_cons_ws (c : Char) (cs : List Char) (h : isJsWhitespace c = true) :
    nonWhitespaceRuns (c :: cs) = nonWhitespaceRuns cs := by
  unfold nonWhitespaceRuns
  rw [List.splitOnP_cons]
  simp [h]

theorem nonWhitespaceRuns_cons_nonws (c : Char) (cs : List Char)
    (h : isJsWhitespace c = false) :
    ∃ r rs, cs.splitOnP isJsWhitespace = r :: rs ∧
      nonWhitespaceRuns (c :: cs) = (c :: r) :: rs.filter (fun r => !r.isEmpty) := by
  unfold nonWhitespaceRuns
  rw [List.splitOnP_cons]
  cases hs : cs.splitOnP isJsWhitespace with
  | nil => exact absurd hs (List.splitOnP_ne_nil _ _)
  | cons r rs =>
    refine ⟨r, rs, rfl, ?_⟩
    simp [h, List.modifyHead]


theorem join_runs_cons_ws (c : Char) (cs : List Char) (h : isJsWhitespace c = true) :
    joinWithSpaces (nonWhitespaceRuns (c :: cs)) = joinWithSpaces (nonWhitespaceRuns cs) := by
  rw [nonWhitespaceRuns_cons_ws c cs h]

theorem join_runs_cons_nonws (c : Char) (cs : List Char) (h : isJsWhitespace c = false) :
    joinWithSpaces (nonWhitespaceRuns (c :: cs)) = c :: joinedRunsAfterLead cs := by
  cases cs with
  | nil =>
    simp [nonWhitespaceRuns, List.splitOnP_cons, List.splitOnP_nil, h, List.modifyHead,
      joinWithSpaces_cons, joinedRunsAfterLead]
  | cons d ds =>
    obtain ⟨r, rs, hs, hruns⟩ := nonWhitespaceRuns_cons_nonws c (d :: ds) h
    rw [hruns, joinWithSpaces_cons]
    cases hd : isJsWhitespace d with
    | true =>
      rw [List.splitOnP_cons] at hs
      simp only [hd, if_true] at hs
      injection hs with h1 h2
      subst h1
      have hrs : rs.filter (fun r => !r.isEmpty) = nonWhitespaceRuns ds := by
        rw [← h2]
        rfl
      rw [hrs]
      have hnil := joinWithSpaces_eq_nil (nonWhitespaceRuns ds) (nonWhitespaceRuns_ne_nil ds)
      simp only [joinedRunsAfterLead, hd, if_true]
      by_cases hr : nonWhitespaceRuns ds = []
      · simp [hr, joinWithSpaces_nil]
      · have : joinWithSpaces (nonWhitespaceRuns ds) ≠ [] := fun h => hr (hnil.mp h)
        simp [hr, this]
    | false =>
      obtain ⟨r2, rs2, hs2, hruns2⟩ := nonWhitespaceRuns_cons_nonws d ds hd
      rw [List.splitOnP_cons, hs2] at hs
      simp only [hd, Bool.false_eq_true, if_false, List.modifyHead] at hs
      injection hs with h1 h2
      subst h1
      subst h2
      simp only [joinedRunsAfterLead, hd, Bool.false_eq_true, if_false]
      rw [hruns2, joinWithSpaces_cons]
      simp

theorem rdropWhile_replace (cs : List Char) :
    (replaceWhitespaceRuns true cs).rdropWhile isJsWhitespace =
        joinWithSpaces (nonWhitespaceRuns cs) ∧
    (replaceWhitespaceRuns false cs).rdropWhile isJsWhitespace = joinedRunsAfterLead cs := by
  induction cs with
  | nil =>
    simp [replace_nil, nonWhitespaceRuns_nil, joinWithSpaces_nil, joinedRunsAfterLead]
  | cons c cs ih =>
    cases hc : isJsWhitespace c with
    | true =>
      refine ⟨?_, ?_⟩
      · rw [replace_ws_inRun c cs hc, join_runs_cons_ws c cs hc]
        exact ih.1
      · rw [replace_ws_start c cs hc, rdropWhile_cons_ws _ _ isJsWhitespace_space, ih.1]
        simp [joinedRunsAfterLead, hc]
    | false =>
      have key : (c :: replaceWhitespaceRuns false cs).rdropWhile isJsWhitespace =
          joinWithSpaces (nonWhitespaceRuns (c :: cs)) := by
        rw [rdropWhile_cons_nonws _ _ hc, ih.2, join_runs_cons_nonws c cs hc]
      refine ⟨?_, ?_⟩
      · rw [replace_nonws true c cs hc]
        exact key
      · rw [replace_nonws false c cs hc, key]
        simp [joinedRunsAfterLead, hc]

theorem jsTrim_replace (cs : List Char) :
    jsTrim (replaceWhitespaceRuns false cs) = joinWithSpaces (nonWhitespaceRuns cs) := by
  unfold jsTrim
  rw [dropWhile_replace]
  exact (rdropWhile_replace cs).1

theorem jsTrim_replace_normalized (cs : List Char) :
    Normalized (jsTrim (replaceWhitespaceRuns false cs)) := by
  have hpre : jsTrim (replaceWhitespaceRuns false cs) <+: replaceWhitespaceRuns true cs := by
    unfold jsTrim
    rw [dropWhile_replace]
    exact List.rdropWhile_prefix _ _
  refine ⟨?_, ?_, ?_, ?_⟩
  · intro c hc hw
    exact replace_mem_ws cs true c (hpre.subset hc) hw
  · intro c hc
    apply replace_inRun_head cs c
    obtain ⟨t, ht⟩ := hpre
    rw [← ht]
    cases hj : jsTrim (replaceWhitespaceRuns false cs) with
    | nil => rw [hj] at hc; simp at hc
    | cons a as => rw [hj] at hc; simpa using hc
  · intro c hc
    have hne : ((replaceWhitespaceRuns false cs).dropWhile isJsWhitespace).rdropWhile
        isJsWhitespace ≠ [] := by
      intro h
      unfold jsTrim at hc
      rw [h] at hc
      simp at hc
    have hlast := List.rdropWhile_last_not isJsWhitespace _ hne
    unfold jsTrim at hc
    rw [List.getLast?_eq_getLast _ hne] at hc
    injection hc with hc
    rw [hc] at hlast
    simpa using hlast
  · exact List.Chain'.infix (replace_chain cs true) hpre.isInfix

theorem replace_of_normal (cs : List Char) :
    (∀ c ∈ cs, isJsWhitespace c = true → c = ' ') →
    cs.Chain' (fun a b => ¬ (isJsWhitespace a = true ∧ isJsWhitespace b = true)) →
    replaceWhitespaceRuns false cs = cs ∧
    ((∀ c, cs.head? = some c → isJsWhitespace c = false) →
      replaceWhitespaceRuns true cs = cs) := by
  induction cs with
  | nil =>
    intro _ _
    exact ⟨rfl, fun _ => rfl⟩
  | cons a as ih =>
    intro hsp hch
    rw [List.chain'_cons'] at hch
    have ih2 := ih (fun c hc => hsp c (List.mem_cons_of_mem _ hc)) hch.2
    cases ha : isJsWhitespace a with
    | true =>
      have hsa : a = ' ' := hsp a (List.mem_cons_self _ _) ha
      refine ⟨?_, ?_⟩
      · rw [replace_ws_start a as ha]
        have hhead : ∀ c, as.head? = some c → isJsWhitespace c = false := by
          intro c hc
          have := hch.1 c (by simpa using hc)
          cases hw : isJsWhitespace c with
          | false => rfl
          | true => exact absurd ⟨ha, hw⟩ this
        rw [ih2.2 hhead, hsa]
      · intro hh
        have := hh a rfl
        rw [ha] at this
        exact absurd this (by simp)
    | false =>
      refine ⟨?_, fun _ => ?_⟩
      · rw [replace_nonws false a as ha, ih2.1]
      · rw [replace_nonws true a as ha, ih2.1]

theorem jsTrim_of_normal (cs : List Char)
    (hh : ∀ c, cs.head? = some c → isJsWhitespace c = false)
    (hl : ∀ c, cs.getLast? = some c → isJsWhitespace c = false) : jsTrim cs = cs := by
  unfold jsTrim
  rw [dropWhile_of_head _ _ hh, List.rdropWhile_eq_self_iff]
  intro hne
  have := hl (cs.getLast hne) (List.getLast?_eq_getLast _ hne)
  simp [this]

theorem normalize_of_normalized (cs : List Char) (h : Normalized cs) :
    jsTrim (replaceWhitespaceRuns false cs) = cs := by
  obtain ⟨h1, h2, h3, h4⟩ := h
  rw [(replace_of_normal cs h1 h4).1]
  exact jsTrim_of_normal cs h2 h3

/-- C8. For every string `s` in a post's `tags`, the tag list `generateRSSFeed`
puts after `Tags: ` in the item description is `normalizeTagString s`, whose
characters are the maximal non-whitespace runs of `s`, in order, joined by
single spaces; it is normalized (its only whitespace character is the space,
it does not start or end with whitespace, it has no two adjacent whitespace
characters); a missing (`undefined`, `null`) or empty `tags` gives the empty
tag list; and normalizing a normalized string, in particular an already
normalized tag list, returns it unchanged. -/
theorem C8_tag_normalization (s : String) :
    postTags (.str s) = .ok (normalizeTagString s) ∧
    (∀ (env : Env) (config : FeedConfig) (artistId : String) (post : Post) (it : RssItem),
      post.tags = .str s → rssItem env config artistId post = .ok it →
      it.description = "<img src=\"" ++ post.file_url.toStr ++
        "\" referrerpolicy=\"no-referrer\"><br/>Tags: " ++ normalizeTagString s) ∧
    (normalizeTagString s).data = joinWithSpaces (nonWhitespaceRuns s.data) ∧
    Normalized (normalizeTagString s).data ∧
    postTags .undefined = .ok "" ∧ postTags .null = .ok "" ∧ postTags (.str "") = .ok "" ∧
    (Normalized s.data → normalizeTagString s = s) ∧
    normalizeTagString (normalizeTagString s) = normalizeTagString s := by
  have hpost : postTags (.str s) = .ok (normalizeTagString s) := by
    unfold postTags
    by_cases hs : s = ""
    · subst hs
      rfl
    · simp [JsVal.truthy, hs]
  have hfix : ∀ t : String, Normalized t.data → normalizeTagString t = t := by
    intro t ht
    apply String.ext
    exact normalize_of_normalized t.data ht
  refine ⟨hpost, ?_, jsTrim_replace s.data, jsTrim_replace_normalized s.data, rfl, rfl, rfl,
    hfix s, hfix _ (jsTrim_replace_normalized s.data)⟩
  intro env config artistId post it ht hit
  obtain ⟨tags, htags, hdesc⟩ := rssItem_ok env config artistId post it hit
  rw [ht, hpost] at htags
  injection htags with htags
  rw [hdesc, htags]

/-! ## Upstream client facts -/

theorem params_with_credentials (env : Env) (tags : String) (limit : Option Int)
    (hk : env.GELBOORU_API_KEY ≠ "") (hu : env.GELBOORU_USER_ID ≠ "") :
    fetchGelbooruPosts_params env tags limit =
      nonCredentialParams tags limit ++
        [("api_key", .str env.GELBOORU_API_KEY), ("user_id", .str env.GELBOORU_USER_ID)] := by
  simp [fetchGelbooruPosts_params, nonCredentialParams, hk, hu]

theorem params_without_credentials (env : Env) (tags : String) (limit : Option Int)
    (h : ¬ (env.GELBOORU_API_KEY ≠ "" ∧ env.GELBOORU_USER_ID ≠ "")) :
    fetchGelbooruPosts_params env tags limit = nonCredentialParams tags limit := by
  unfold fetchGelbooruPosts_params nonCredentialParams
  by_cases hk : env.GELBOORU_API_KEY = ""
  · simp [hk]
  · have hu : env.GELBOORU_USER_ID = "" := by
      by_contra hu
      exact h ⟨hk, hu⟩
    simp [hu]

/-- C11. The query parameters `fetchGelbooruPosts` builds contain `api_key`, and
likewise `user_id`, exactly when both the configured API key and the configured
user id are non-empty; in that case the two parameters carry exactly those two
values, and otherwise (one or both empty) the parameters contain neither. In
every case the parameters other than the two credentials are the same list:
the endpoint selectors, the format flag `json = '1'`, the tag query and the
limit, which is 20 when the caller passes none. -/
theorem C11_credentials_iff_both (env : Env) (tags : String) (limit : Option Int) :
    (((fetchGelbooruPosts_params env tags limit).lookup "api_key").isSome = true ↔
      (env.GELBOORU_API_KEY ≠ "" ∧ env.GELBOORU_USER_ID ≠ "")) ∧
    (((fetchGelbooruPosts_params env tags limit).lookup "user_id").isSome = true ↔
      (env.GELBOORU_API_KEY ≠ "" ∧ env.GELBOORU_USER_ID ≠ "")) ∧
    ((env.GELBOORU_API_KEY ≠ "" ∧ env.GELBOORU_USER_ID ≠ "") →
      (fetchGelbooruPosts_params env tags limit).lookup "api_key" =
          some (.str env.GELBOORU_API_KEY) ∧
      (fetchGelbooruPosts_params env tags limit).lookup "user_id" =
          some (.str env.GELBOORU_USER_ID) ∧
      (fetchGelbooruPosts_params env tags limit).filter isCredentialParam =
        [("api_key", .str env.GELBOORU_API_KEY), ("user_id", .str env.GELBOORU_USER_ID)]) ∧
    (¬ (env.GELBOORU_API_KEY ≠ "" ∧ env.GELBOORU_USER_ID ≠ "") →
      (fetchGelbooruPosts_params env tags limit).lookup "api_key" = none ∧
      (fetchGelbooruPosts_params env tags limit).lookup "user_id" = none ∧
      (fetchGelbooruPosts_params env tags limit).filter isCredentialParam = []) ∧
    (fetchGelbooruPosts_params env tags limit).filter (fun kv => !isCredentialParam kv) =
      nonCredentialParams tags limit ∧
    (fetchGelbooruPosts_params env tags limit).lookup "json" = some (.str "1") ∧
    (fetchGelbooruPosts_params env tags limit).lookup "tags" = some (.str tags) ∧
    (fetchGelbooruPosts_params env tags limit).lookup "limit" = some (.num (limit.getD 20)) ∧
    (fetchGelbooruPosts_params env tags none).lookup "limit" = some (.num 20) := by
  have hlimit : ∀ l : Option Int,
      (fetchGelbooruPosts_params env tags l).lookup "limit" = some (.num (l.getD 20)) := by
    intro l
    by_cases h : env.GELBOORU_API_KEY ≠ "" ∧ env.GELBOORU_USER_ID ≠ ""
    · rw [params_with_credentials env tags l h.1 h.2]
      simp [nonCredentialParams, List.lookup]
    · rw [params_without_credentials env tags l h]
      simp [nonCredentialParams, List.lookup]
  by_cases h : env.GELBOORU_API_KEY ≠ "" ∧ env.GELBOORU_USER_ID ≠ ""
  · have hp := params_with_credentials env tags limit h.1 h.2
    have h1 : (fetchGelbooruPosts_params env tags limit).lookup "api_key" =
        some (.str env.GELBOORU_API_KEY) := by
      rw [hp]
      simp [nonCredentialParams, List.lookup]
    have h2 : (fetchGelbooruPosts_params env tags limit).lookup "user_id" =
        some (.str env.GELBOORU_USER_ID) := by
      rw [hp]
      simp [nonCredentialParams, List.lookup]
    have h3 : (fetchGelbooruPosts_params env tags limit).filter isCredentialParam =
        [("api_key", .str env.GELBOORU_API_KEY), ("user_id", .str env.GELBOORU_USER_ID)] := by
      rw [hp]
      simp [nonCredentialParams, isCredentialParam, List.filter]
    refine ⟨?_, ?_, fun _ => ⟨h1, h2, h3⟩, fun hn => absurd h hn, ?_, ?_, ?_, hlimit limit,
      hlimit none⟩
    · simp [h1, h]
    · simp [h2, h]
    · rw [hp]
      simp [nonCredentialParams, isCredentialParam, List.filter]
    · rw [hp]
      simp [nonCredentialParams, List.lookup]
    · rw [hp]
      simp [nonCredentialParams, List.lookup]
  · have hp := params_without_credentials env tags limit h
    have h1 : (fetchGelbooruPosts_params env tags limit).lookup "api_key" = none := by
      rw [hp]
      simp [nonCredentialParams, List.lookup]
    have h2 : (fetchGelbooruPosts_params env tags limit).lookup "user_id" = none := by
      rw [hp]
      simp [nonCredentialParams, List.lookup]
    have h3 : (fetchGelbooruPosts_params env tags limit).filter isCredentialParam = [] := by
      rw [hp]
      simp [nonCredentialParams, isCredentialParam, List.filter]
    refine ⟨?_, ?_, fun hb => absurd hb h, fun _ => ⟨h1, h2, h3⟩, ?_, ?_, ?_, hlimit limit,
      hlimit none⟩
    · rw [h1]
      simp only [Option.isSome_none, Bool.false_eq_true, false_iff]
      exact h
    · rw [h2]
      simp only [Option.isSome_none, Bool.false_eq_true, false_iff]
      exact h
    · rw [hp]
      simp [nonCredentialParams, isCredentialParam, List.filter]
    · rw [hp]
      simp [nonCredentialParams, List.lookup]
    · rw [hp]
      simp [nonCredentialParams, List.lookup]

/-! ## Instances of the statements on the sample data -/

theorem freshState_idle (artistId : String) : Idle freshState artistId := by
  intro e h
  simp [freshState, FeedCache.empty] at h

theorem sample_render :
    generateRSSFeed sampleEnv 0 (some { post := some [samplePost] }) khyleConfig "khyle" =
      .ok (some (xmlDeclaration ++ "<rss/>")) := by
  rfl

theorem numericTags_render :
    generateRSSFeed sampleEnv 0 (some { post := some [numericTagsPost] }) khyleConfig "khyle" =
      .error "post.tags.replace is not a function" := by
  rfl

/-- C1 on the sample data: a trigger for `khyle` while a cycle is running changes
nothing, and of two triggers after start-up only the first issues a request. -/
theorem C1_in_progress_guard_witness :
    (busyState.feedCache "khyle" = some { isUpdating := true } ∧
      updateArtistCache sampleEnv sampleConfigs "khyle" none 0 0 busyState = busyState) ∧
    (sampleConfigs "khyle" = some khyleConfig ∧ Idle freshState "khyle" ∧
      ∃ p st1, updateArtistCache_start sampleEnv sampleConfigs "khyle" freshState =
          (.awaiting p, st1) ∧
        st1.upstreamCalls = [fetchGelbooruPosts_request sampleEnv "khyle_(artist)" none] ∧
        updateArtistCache_start sampleEnv sampleConfigs "khyle" st1 =
          (.alreadyInProgress, st1)) := by
  refine ⟨⟨rfl, ?_⟩, rfl, freshState_idle "khyle", ?_⟩
  · exact ((C1_in_progress_guard sampleEnv sampleConfigs "khyle").1 busyState
      { isUpdating := true } rfl rfl).2.2 none 0 0
  · obtain ⟨p, st1, h1, h2, _, _, h3, _⟩ :=
      (C1_in_progress_guard sampleEnv sampleConfigs "khyle").2 freshState khyleConfig rfl
        (freshState_idle "khyle")
    exact ⟨p, st1, h1, h2, h3⟩

/-- C2 on the sample data: a cycle whose rendering throws still clears
`isUpdating`. -/
theorem C2_in_progress_cleared_witness :
    sampleConfigs "khyle" = some khyleConfig ∧ Idle freshState "khyle" ∧
    ∃ e, (updateArtistCache sampleEnv sampleConfigs "khyle"
        (some { post := some [numericTagsPost] }) 0 0 freshState).feedCache "khyle" = some e ∧
      e.isUpdating = false :=
  ⟨rfl, freshState_idle "khyle",
    (C2_in_progress_cleared sampleEnv sampleConfigs "khyle" khyleConfig freshState rfl
      (freshState_idle "khyle")).2 (some { post := some [numericTagsPost] }) 0 0⟩

/-- C3 on the sample data, with a ten-minute interval: no entry, no content, and
the boundary at 600000 ms. -/
theorem C3_needsUpdate_witness :
    (needsUpdate sampleEnv 0 "khyle" freshState).1 = true ∧
    (needsUpdate sampleEnv 0 "khyle" busyState).1 = true ∧
    (needsUpdate sampleEnv 600000 "khyle" cachedState).1 = true ∧
    (needsUpdate sampleEnv 599999 "khyle" cachedState).1 = false :=
  ⟨(C3_needsUpdate sampleEnv 0 "khyle" freshState).1 rfl,
    (C3_needsUpdate sampleEnv 0 "khyle" busyState).2.1 { isUpdating := true } rfl rfl,
    (C3_needsUpdate sampleEnv 600000 "khyle" cachedState).2.2.2.1 _ 0 rfl rfl (by decide),
    (C3_needsUpdate sampleEnv 599999 "khyle" cachedState).2.2.2.2.1 _ 0 rfl rfl rfl
      (by decide)⟩

/-- C4 on the sample data: fresh at the commit time 1000, stale ten minutes
later. -/
theorem C4_fresh_after_commit_witness :
    (0 : Int) < sampleEnv.UPDATE_INTERVAL_MINUTES ∧
    sampleConfigs "khyle" = some khyleConfig ∧ Idle freshState "khyle" ∧
    (needsUpdate sampleEnv 1000 "khyle"
      (updateArtistCache sampleEnv sampleConfigs "khyle" (some { post := some [samplePost] }) 0
        1000 freshState)).1 = false ∧
    (needsUpdate sampleEnv (1000 + sampleEnv.UPDATE_INTERVAL_MINUTES * 60000) "khyle"
      (updateArtistCache sampleEnv sampleConfigs "khyle" (some { post := some [samplePost] }) 0
        1000 freshState)).1 = true := by
  have h := C4_fresh_after_commit sampleEnv sampleConfigs "khyle" khyleConfig samplePost [] 0
    1000 freshState _ (by decide) rfl (freshState_idle "khyle") sample_render
  exact ⟨by decide, rfl, freshState_idle "khyle", h.1, h.2.2⟩

/-- C5 on the sample data: a failed upstream call after start-up leaves `khyle`
without content and `/rss/khyle` answers 404. -/
theorem C5_failed_cycle_frame_witness :
    sampleConfigs "khyle" = some khyleConfig ∧ Idle freshState "khyle" ∧
    truthyContent (rssContentOf freshState "khyle") = false ∧
    rssContentOf (updateArtistCache sampleEnv sampleConfigs "khyle" none 0 0 freshState)
      "khyle" = rssContentOf freshState "khyle" ∧
    (rssHandler sampleEnv sampleConfigs "khyle" 0 none 0 0 freshState).1 =
      { status := 404, headers := [], body := "No RSS content available for: khyle" } := by
  have h := C5_failed_cycle_frame sampleEnv sampleConfigs "khyle" khyleConfig none 0 0 rfl
    (Or.inl rfl)
  exact ⟨rfl, freshState_idle "khyle", rfl, (h.1 freshState (freshState_idle "khyle")).1,
    h.2 freshState 0 rfl⟩

/-- C6 (amended) on the sample data: one well-formed post is committed. -/
theorem C6_commit_when_rendered_witness :
    sampleConfigs "khyle" = some khyleConfig ∧ Idle freshState "khyle" ∧
    Committed sampleEnv khyleConfig "khyle" [samplePost] 0 1000
      (updateArtistCache sampleEnv sampleConfigs "khyle" (some { post := some [samplePost] }) 0
        1000 freshState) :=
  ⟨rfl, freshState_idle "khyle",
    C6_commit_when_rendered sampleEnv sampleConfigs "khyle" khyleConfig samplePost [] 0 1000
      freshState rfl (freshState_idle "khyle")
      (by intro m; rw [sample_render]; exact fun h => Except.noConfusion h)⟩

/-- C6, as stated, fails: the feed `khyle` is configured and idle and the
upstream returns one post, but that post's `tags` is the number 5, so
`post.tags.replace` throws inside `generateRSSFeed`; the cycle ends with an
entry that has no content, no timestamp and no post count, hence has not
committed. -/
theorem C6_counterexample :
    sampleConfigs "khyle" = some khyleConfig ∧ Idle freshState "khyle" ∧
    (updateArtistCache sampleEnv sampleConfigs "khyle"
        (some { post := some [numericTagsPost] }) 0 1000 freshState).feedCache "khyle" =
      some { isUpdating := false, rssContent := none, lastUpdate := none, postCount := none } ∧
    ¬ Committed sampleEnv khyleConfig "khyle" [numericTagsPost] 0 1000
      (updateArtistCache sampleEnv sampleConfigs "khyle"
        (some { post := some [numericTagsPost] }) 0 1000 freshState) := by
  have he : (updateArtistCache sampleEnv sampleConfigs "khyle"
        (some { post := some [numericTagsPost] }) 0 1000 freshState).feedCache "khyle" =
      some { isUpdating := false, rssContent := none, lastUpdate := none, postCount := none } := by
    rfl
  refine ⟨rfl, freshState_idle "khyle", he, ?_⟩
  rintro ⟨e, doc, h1, _, h3, _⟩
  rw [he] at h1
  injection h1 with h1
  subst h1
  simp at h3

theorem sample_posts_usable : ∀ p ∈ [samplePost, secondPost], p.tagsUsable := by
  intro p hp
  simp only [List.mem_cons, List.mem_singleton, List.not_mem_nil, or_false] at hp
  rcases hp with rfl | rfl
  · exact Or.inr ⟨" 1girl   solo ", rfl⟩
  · exact Or.inl rfl

/-- C7 on the sample data: posts with ids 1 and 2 under the feed id `foo` give
two items with guids `gelbooru:foo:1` and `gelbooru:foo:2`. -/
theorem C7_one_item_per_post_witness :
    (∀ p ∈ [samplePost, secondPost], p.tagsUsable) ∧
    ∃ d, generateRSSFeed_data sampleEnv 0 (some { post := some [samplePost, secondPost] })
        fooConfig "foo" = .ok (some d) ∧
      d.channel.item.length = 2 ∧
      d.channel.item.map (·.guid) =
        [{ text := "gelbooru:foo:1", isPermaLink := "false" },
         { text := "gelbooru:foo:2", isPermaLink := "false" }] := by
  refine ⟨sample_posts_usable, ?_⟩
  obtain ⟨d, hd⟩ := (C7_one_item_per_post sampleEnv 0 samplePost [secondPost] fooConfig
    "foo").1 sample_posts_usable
  obtain ⟨h1, h2, _, _⟩ := (C7_one_item_per_post sampleEnv 0 samplePost [secondPost] fooConfig
    "foo").2 d hd
  refine ⟨d, hd, h1, ?_⟩
  rw [h2]
  decide

/-- C9 on the sample data: no `image` key without an icon, the configured block
with one. -/
theorem C9_image_block_witness :
    fooConfig.ICON_URL = "" ∧ khyleConfig.ICON_URL ≠ "" ∧
    (rssData sampleEnv 0 fooConfig "foo" []).channel.image = .absent ∧
    (rssData sampleEnv 0 khyleConfig "khyle" []).channel.image =
      .val { url := "https://img.gelbooru.com/icon.png"
             title := "Posts of Khyle from Gelbooru"
             link := "https://gelbooru.com/index.php?page=post&s=list&tags=khyle_(artist)+" } :=
  ⟨rfl, by decide,
    ((C9_image_block sampleEnv 0 fooConfig "foo").2 []).2.1 rfl,
    ((C9_image_block sampleEnv 0 khyleConfig "khyle").2 []).2.2 (by decide)⟩

/-- C10 on the sample data: the document returned for one post comes from a
non-empty post list. -/
theorem C10_no_document_without_posts_witness :
    generateRSSFeed sampleEnv 0 (some { post := some [samplePost] }) khyleConfig "khyle" =
      .ok (some (xmlDeclaration ++ "<rss/>")) ∧
    ∃ q qs, (some { post := some [samplePost] } : Option UpstreamData) =
      some { post := some (q :: qs) } :=
  ⟨sample_render,
    (C10_no_document_without_posts sampleEnv 0 khyleConfig "khyle").2.2.2.1 _ _ sample_render⟩

theorem sample_normalized : Normalized "1girl solo".data := by
  have h := jsTrim_replace_normalized "1girl solo".data
  have e : jsTrim (replaceWhitespaceRuns false "1girl solo".data) = "1girl solo".data := by
    decide
  rw [e] at h
  exact h

/-- C8 on the sample data: runs of blanks, tabs and newlines collapse, a
normalized string is kept, and the description ends with the flattened tags. -/
theorem C8_tag_normalization_witness :
    normalizeTagString " 1girl \t\n solo  " = "1girl solo" ∧
    Normalized "1girl solo".data ∧
    normalizeTagString "1girl solo" = "1girl solo" ∧
    ∃ it, rssItem sampleEnv khyleConfig "khyle" samplePost = .ok it ∧
      it.description = "<img src=\"https://img.gelbooru.com/1.png\" " ++
        "referrerpolicy=\"no-referrer\"><br/>Tags: 1girl solo" := by
  refine ⟨by decide, sample_normalized,
    (C8_tag_normalization "1girl solo").2.2.2.2.2.2.2.1 sample_normalized, ?_⟩
  obtain ⟨it, hit⟩ := rssItem_usable sampleEnv khyleConfig "khyle" samplePost
    (Or.inr ⟨_, rfl⟩)
  refine ⟨it, hit, ?_⟩
  rw [(C8_tag_normalization " 1girl   solo ").2.1 sampleEnv khyleConfig "khyle" samplePost it
    rfl hit]
  decide

/-- C11 on the sample data: with key `k3y` and user id `42` both parameters are
sent with those values; with the key alone neither is sent; the call without a
limit asks for 20 posts. -/
theorem C11_credentials_iff_both_witness :
    (credentialEnv.GELBOORU_API_KEY ≠ "" ∧ credentialEnv.GELBOORU_USER_ID ≠ "") ∧
    ¬ (keyOnlyEnv.GELBOORU_API_KEY ≠ "" ∧ keyOnlyEnv.GELBOORU_USER_ID ≠ "") ∧
    (fetchGelbooruPosts_params credentialEnv "foo" none).filter isCredentialParam =
      [("api_key", .str "k3y"), ("user_id", .str "42")] ∧
    (fetchGelbooruPosts_params keyOnlyEnv "foo" none).lookup "api_key" = none ∧
    (fetchGelbooruPosts_params keyOnlyEnv "foo" none).lookup "user_id" = none ∧
    (fetchGelbooruPosts_params keyOnlyEnv "foo" none).lookup "limit" = some (.num 20) := by
  have hb : credentialEnv.GELBOORU_API_KEY ≠ "" ∧ credentialEnv.GELBOORU_USER_ID ≠ "" :=
    ⟨by decide, by decide⟩
  have hn : ¬ (keyOnlyEnv.GELBOORU_API_KEY ≠ "" ∧ keyOnlyEnv.GELBOORU_USER_ID ≠ "") :=
    fun h => h.2 rfl
  have hc := (C11_credentials_iff_both credentialEnv "foo" none).2.2.1 hb
  have hk := (C11_credentials_iff_both keyOnlyEnv "foo" none).2.2.2.1 hn
  exact ⟨hb, hn, hc.2.2, hk.1, hk.2.1,
    (C11_credentials_iff_both keyOnlyEnv "foo" none).2.2.2.2.2.2.2.2⟩

end Gelrss
